import Mathlib

/-!
Shallow embedding of the uk-retirement-planner backend
(src/backend/models.py and src/backend/engine.py).

Python floats are embedded as rationals; Python dicts (insertion ordered,
update-in-place) as association lists; and the attribute access
`asset.dividend_yield` at engine.py:183, which raises AttributeError because
models.Asset declares no dividend_yield field, as an `Except` error.
-/

namespace RetPlan

/-- models.py AssetType literal. -/
inductive AssetType
  | isa | pension | general | cash | property | rsu | premium_bonds
  deriving DecidableEq, Repr, Inhabited

/-- models.py IncomeSourceType literal. -/
inductive IncomeSourceType
  | state_pension | db_pension | employment | other
  deriving DecidableEq, Repr, Inhabited

/-- models.py AssetOwnership. -/
structure AssetOwnership where
  person_id : String
  share : ℚ
  deriving DecidableEq, Repr

/-- models.py Asset. There is no dividend_yield field: the pydantic model does
not declare one (extra keyword arguments are silently ignored on construction). -/
structure Asset where
  id : String
  name : String
  type : AssetType
  balance : ℚ
  annual_growth_rate : ℚ
  annual_contribution : ℚ
  is_withdrawable : Bool := true
  max_annual_withdrawal : Option ℚ := none
  owners : List AssetOwnership := []
  deriving DecidableEq, Repr

instance : Inhabited Asset :=
  ⟨{ id := "", name := "", type := AssetType.isa, balance := 0,
     annual_growth_rate := 0, annual_contribution := 0 }⟩

/-- models.py Person. -/
structure Person where
  id : String
  name : String
  deriving DecidableEq, Repr

/-- models.py IncomeSource. -/
structure IncomeSource where
  id : String
  name : String
  type : IncomeSourceType := IncomeSourceType.other
  amount : ℚ
  start_age : ℤ
  end_age : ℤ
  person_id : Option String := none
  deriving DecidableEq, Repr

/-- models.py SimulationParams. -/
structure SimulationParams where
  current_age : ℤ
  retirement_age : ℤ
  life_expectancy : ℤ
  inflation_rate : ℚ
  desired_annual_income : ℚ
  people : List Person := []
  assets : List Asset
  incomes : List IncomeSource
  withdrawal_priority : List AssetType
  deriving DecidableEq, Repr

/-- Insertion-ordered dictionary with string keys (Python dict). -/
abbrev Dict (α : Type) := List (String × α)

/-- Python `d[k] = v`: update in place if the key exists, else append. -/
def dictSet {α : Type} (d : Dict α) (k : String) (v : α) : Dict α :=
  match d with
  | [] => [(k, v)]
  | (k', v') :: rest => if k' = k then (k', v) :: rest else (k', v') :: dictSet rest k v

/-- Python `d.get(k)`: value at the first (unique) occurrence of the key. -/
def dictGet? {α : Type} (d : Dict α) (k : String) : Option α :=
  match d with
  | [] => none
  | (k', v) :: rest => if k' = k then some v else dictGet? rest k

/-- Python `d.get(k, v₀)`. -/
def dictGetD {α : Type} (d : Dict α) (k : String) (v₀ : α) : α :=
  (dictGet? d k).getD v₀

/-- Python `k in d`. -/
def dictMem {α : Type} (d : Dict α) (k : String) : Bool :=
  (dictGet? d k).isSome

/-- engine.py tax-band constants (2024/25). -/
def PERSONAL_ALLOWANCE : ℚ := 12570

def BASIC_RATE_LIMIT : ℚ := 50270

def HIGHER_RATE_LIMIT : ℚ := 125140

def PA_TAPER_THRESHOLD : ℚ := 100000

def CGT_ANNUAL_EXEMPT : ℚ := 3000

def DIVIDEND_ALLOWANCE : ℚ := 500

def PENSION_TAX_FREE_LIFETIME_LIMIT : ℚ := 268275

/-- Python round(x, 2). Ties at the second decimal cannot arise on binary-float
(dyadic) inputs, so round-half-even coincides with round-to-nearest there. -/
def round2 (x : ℚ) : ℚ := (round (100 * x) : ℤ) / 100

/-- engine.py effective personal allowance with the taper above 100000. -/
def effective_personal_allowance (gross_income : ℚ) : ℚ :=
  if gross_income > PA_TAPER_THRESHOLD then
    let reduction := min PERSONAL_ALLOWANCE ((gross_income - PA_TAPER_THRESHOLD) / 2)
    max 0 (PERSONAL_ALLOWANCE - reduction)
  else PERSONAL_ALLOWANCE

/-- engine.py calculate_uk_income_tax. -/
def calculate_uk_income_tax (income : ℚ) : ℚ :=
  if income ≤ 0 then 0
  else
    let pa := effective_personal_allowance income
    let taxable := max 0 (income - pa)
    let basic_band := max 0 (BASIC_RATE_LIMIT - pa)
    let basic := min taxable basic_band
    let remainder1 := taxable - basic
    let higher_band := HIGHER_RATE_LIMIT - BASIC_RATE_LIMIT
    let higher := min remainder1 higher_band
    let remainder2 := remainder1 - higher
    round2 (basic * (20 / 100) + higher * (40 / 100) + remainder2 * (45 / 100))

/-- engine.py calculate_uk_cgt. -/
def calculate_uk_cgt (gains taxable_income : ℚ) (is_property : Bool) : ℚ :=
  let net_gain := max 0 (gains - CGT_ANNUAL_EXEMPT)
  if net_gain ≤ 0 then 0
  else
    let remaining_basic := max 0 (BASIC_RATE_LIMIT - taxable_income)
    let rate_basic : ℚ := if is_property then 18 / 100 else 10 / 100
    let rate_higher : ℚ := if is_property then 24 / 100 else 20 / 100
    let in_basic := min net_gain remaining_basic
    let in_higher := net_gain - in_basic
    round2 (in_basic * rate_basic + in_higher * rate_higher)

/-- engine.py calculate_uk_dividend_tax. -/
def calculate_uk_dividend_tax (dividends taxable_income : ℚ) : ℚ :=
  let net_dividends := max 0 (dividends - DIVIDEND_ALLOWANCE)
  if net_dividends ≤ 0 then 0
  else
    let remaining_basic := max 0 (BASIC_RATE_LIMIT - taxable_income)
    let remaining_higher := max 0 (HIGHER_RATE_LIMIT - max BASIC_RATE_LIMIT taxable_income)
    let in_basic := min net_dividends remaining_basic
    let remainder := net_dividends - in_basic
    let in_higher := min remainder remaining_higher
    let in_additional := max 0 (remainder - remaining_higher)
    round2 (in_basic * (875 / 10000) + in_higher * (3375 / 10000) +
      in_additional * (3935 / 10000))

/-- engine.py tax-free withdrawal types (isa, cash, premium bonds). -/
def is_tax_free_withdrawal (a : Asset) : Bool :=
  match a.type with
  | AssetType.isa | AssetType.cash | AssetType.premium_bonds => true
  | _ => false

/-- engine.py pension check. -/
def is_pension_withdrawal (a : Asset) : Bool :=
  a.type = AssetType.pension

/-- engine.py CGT asset check (general, rsu). -/
def is_cgt_asset (a : Asset) : Bool :=
  match a.type with
  | AssetType.general | AssetType.rsu => true
  | _ => false

/-- engine.py property CGT check. -/
def is_property_cgt (a : Asset) : Bool :=
  a.type = AssetType.property

/-- The four per-person accumulator dicts passed to _attribute_withdrawal_tax. -/
structure TaxState where
  person_taxable_income : Dict ℚ
  person_cgt_gains : Dict ℚ
  person_cgt_property_gains : Dict ℚ
  person_tax_free_remaining : Dict ℚ
  deriving DecidableEq, Repr

/-- engine.py _attribute_withdrawal_tax. -/
def attribute_withdrawal_tax (pid : String) (amount : ℚ) (asset : Asset)
    (s : TaxState) : TaxState :=
  if is_tax_free_withdrawal asset then s
  else if is_pension_withdrawal asset then
    let tax_free_available := dictGetD s.person_tax_free_remaining pid 0
    let tax_free_portion := min (amount * (25 / 100)) tax_free_available
    let taxable_portion := amount - tax_free_portion
    let tfr' := dictSet s.person_tax_free_remaining pid (tax_free_available - tax_free_portion)
    let pti' := dictSet s.person_taxable_income pid
      (dictGetD s.person_taxable_income pid 0 + taxable_portion)
    { s with person_tax_free_remaining := tfr', person_taxable_income := pti' }
  else if is_cgt_asset asset then
    let cg' := dictSet s.person_cgt_gains pid (dictGetD s.person_cgt_gains pid 0 + amount)
    { s with person_cgt_gains := cg' }
  else if is_property_cgt asset then
    let pg' := dictSet s.person_cgt_property_gains pid
      (dictGetD s.person_cgt_property_gains pid 0 + amount)
    { s with person_cgt_property_gains := pg' }
  else s

/-- engine.py line 129: people = {p.id: p for p in params.people}. -/
def peopleDict (ps : List Person) : Dict Person :=
  ps.foldl (fun d p => dictSet d p.id p) []

/-- Zero-initialized per-person accumulator, {pid: 0.0 for pid in people}. -/
def zeroAccum (people : Dict Person) : Dict ℚ :=
  people.map (fun kv => (kv.1, 0))

/-- engine.py line 202: priority_map = {ptype: i for i, ptype in enumerate(priority)}
followed by priority_map.get(t, 999). A duplicated type keeps its last index. -/
def priorityRank (priority : List AssetType) (t : AssetType) : ℕ :=
  match priority.enum.foldl (fun acc p => if p.2 = t then some p.1 else acc) none with
  | some i => i
  | none => 999

/-- engine.py lines 175-179: growth then, pre-retirement, the contribution. -/
def growAsset (retirement_age age : ℤ) (a : Asset) : Asset :=
  let growth := a.balance * (a.annual_growth_rate / 100)
  let b1 := a.balance + growth
  { a with balance := if age < retirement_age then b1 + a.annual_contribution else b1 }

/-- engine.py lines 182-195 (step 3b): iterating the assets, the access
`asset.dividend_yield` raises AttributeError at the first asset of type general,
because models.Asset has no dividend_yield field; other types short-circuit the
conjunction. The dividend accumulator is therefore never modified. -/
def attributeDividendsStep : List Asset → Except Unit Unit
  | [] => Except.ok ()
  | a :: rest =>
    if a.type = AssetType.general then Except.error () else attributeDividendsStep rest

/-- Result of the withdrawal waterfall (engine.py lines 200-241): updated assets,
remaining shortfall, the draw events (asset index, amount) in execution order —
these are exactly the income_breakdown insertions the loop performs — and the
updated tax accumulators. -/
structure WfResult where
  assets : List Asset
  remaining_shortfall : ℚ
  events : List (ℕ × ℚ)
  tax : TaxState
  deriving DecidableEq, Repr

/-- engine.py lines 222-241: ownership attribution of one withdrawal. An empty
owners list falls back to the first person in the people dict (if any); otherwise
each ownership entry whose person_id is not a known person is skipped. -/
def attributeAssetWithdrawal (people : Dict Person) (a : Asset) (w : ℚ)
    (ts : TaxState) : TaxState :=
  if a.owners.isEmpty then
    match people with
    | [] => ts
    | (pid, _) :: _ => attribute_withdrawal_tax pid w a ts
  else
    a.owners.foldl
      (fun ts o =>
        if dictMem people o.person_id then
          attribute_withdrawal_tax o.person_id (w * o.share) a ts
        else ts)
      ts

/-- engine.py lines 210-215: the amount drawn from one asset,
min(balance, remaining shortfall, max_annual_withdrawal or infinity); a None cap
is float infinity and drops out of the min. -/
def drawAmount (a : Asset) (rem : ℚ) : ℚ :=
  match a.max_annual_withdrawal with
  | none => min a.balance rem
  | some c => min a.balance (min rem c)

/-- engine.py lines 205-241: the waterfall loop over the sorted asset indices.
Breaks when the remaining shortfall is ≤ 0; skips assets with balance ≤ 0;
draws min(balance, remaining, cap or infinity). Mutation of a sorted asset is a
write-back into the main list at its index (the Python objects are aliased). -/
def waterfallGo (people : Dict Person) :
    List ℕ → List Asset → ℚ → List (ℕ × ℚ) → TaxState → WfResult
  | [], assets, rem, evs, ts => ⟨assets, rem, evs.reverse, ts⟩
  | i :: rest, assets, rem, evs, ts =>
    if rem ≤ 0 then ⟨assets, rem, evs.reverse, ts⟩
    else
      let a := assets.getD i default
      if 0 < a.balance then
        let w := drawAmount a rem
        let assets' := assets.set i { a with balance := a.balance - w }
        let ts' := attributeAssetWithdrawal people a w ts
        waterfallGo people rest assets' (rem - w) ((i, w) :: evs) ts'
      else waterfallGo people rest assets rem evs ts

/-- engine.py line 201: indices of the assets with is_withdrawable. -/
def withdrawableIdxs (assets : List Asset) : List ℕ :=
  (assets.enum.filter (fun p => p.2.is_withdrawable)).map (fun p => p.1)

/-- Sort key of an asset index: the 999-sentinel rank of its type. -/
def wfKey (priority : List AssetType) (assets : List Asset) (i : ℕ) : ℕ :=
  priorityRank priority (assets.getD i default).type

/-- engine.py line 203: Python's stable sorted() by the priority rank, embedded
as a stable insertion sort on the withdrawable indices. -/
def sortedWithdrawableIdxs (priority : List AssetType) (assets : List Asset) : List ℕ :=
  (withdrawableIdxs assets).insertionSort
    (fun i j => wfKey priority assets i ≤ wfKey priority assets j)

/-- engine.py lines 200-241: the full waterfall for a given shortfall. -/
def waterfall (people : Dict Person) (priority : List AssetType) (shortfall : ℚ)
    (assets : List Asset) (ts : TaxState) : WfResult :=
  waterfallGo people (sortedWithdrawableIdxs priority assets) assets shortfall [] ts

/-- Sum of the amounts of a list of draw events. -/
def eventsTotal (evs : List (ℕ × ℚ)) : ℚ :=
  evs.foldl (fun s e => s + e.2) 0

/-- engine.py calculate_total_balance. -/
def calculate_total_balance (assets : List Asset) : ℚ :=
  assets.foldl (fun s a => s + a.balance) 0

/-- Per-person tax figures recorded in a year (engine.py lines 256-265). -/
structure TaxBreakdown where
  income_tax : ℚ
  cgt : ℚ
  property_cgt : ℚ
  dividend_tax : ℚ
  total : ℚ
  taxable_income : ℚ
  cgt_gains : ℚ
  dividends : ℚ
  deriving DecidableEq, Repr

/-- One year_record (engine.py lines 268-277). -/
structure YearRecord where
  age : ℤ
  required_income : ℚ
  generated_income : ℚ
  total_assets : ℚ
  asset_balances : Dict ℚ
  income_breakdown : Dict ℚ
  shortfall_remaining : ℚ
  tax_breakdown : Dict TaxBreakdown
  deriving DecidableEq, Repr

/-- State carried from one simulated year to the next: the private asset copies
and the per-person remaining tax-free pension allowance. -/
structure EngineState where
  assets : List Asset
  person_tax_free_remaining : Dict ℚ
  deriving DecidableEq, Repr

/-- engine.py lines 144-147: the inflation-adjusted required income. -/
def requiredIncome (p : SimulationParams) (age : ℤ) : ℚ :=
  if age ≥ p.retirement_age then
    p.desired_annual_income * (1 + p.inflation_rate / 100) ^ (age - p.current_age).toNat
  else 0

/-- engine.py lines 159-172: aggregate the scheduled income sources. Returns
(generated_income, income_breakdown, person_taxable_income). A person_id that is
the empty string is falsy in Python and is skipped like None. -/
def incomeStep (p : SimulationParams) (people : Dict Person) (age : ℤ) :
    ℚ × Dict ℚ × Dict ℚ :=
  p.incomes.foldl
    (fun acc inc =>
      let gen := acc.1
      let bd := acc.2.1
      let pti := acc.2.2
      if inc.start_age ≤ age ∧ age ≤ inc.end_age then
        let inflated := inc.amount * (1 + p.inflation_rate / 100) ^ (age - p.current_age).toNat
        let pti' := match inc.person_id with
          | some pid =>
            if pid ≠ "" ∧ dictMem people pid then
              dictSet pti pid (dictGetD pti pid 0 + inflated)
            else pti
          | none => pti
        (gen + inflated, dictSet bd inc.name inflated, pti')
      else (gen, dictSet bd inc.name 0, pti))
    (0, [], zeroAccum people)

/-- One iteration of the year loop of run_simulation (engine.py lines 141-278).
Errors when step 3b reaches an asset of type general (missing dividend_yield
attribute). -/
def yearStep (p : SimulationParams) (people : Dict Person) (age : ℤ)
    (st : EngineState) : Except Unit (EngineState × YearRecord) :=
  let required_income := requiredIncome p age
  let inc3 := incomeStep p people age
  let gen0 := inc3.1
  let breakdown0 := inc3.2.1
  let pti0 := inc3.2.2
  let assets1 := st.assets.map (growAsset p.retirement_age age)
  match attributeDividendsStep assets1 with
  | Except.error e => Except.error e
  | Except.ok _ =>
    let person_dividend_income := zeroAccum people
    let shortfall := max 0 (required_income - gen0)
    let ts0 : TaxState :=
      ⟨pti0, zeroAccum people, zeroAccum people, st.person_tax_free_remaining⟩
    let wf :=
      if 0 < shortfall then waterfall people p.withdrawal_priority shortfall assets1 ts0
      else ⟨assets1, shortfall, [], ts0⟩
    let assets2 := wf.assets
    let generated_income := gen0 + eventsTotal wf.events
    let breakdown1 := wf.events.foldl
      (fun bd ev =>
        dictSet bd ("Withdrawal: " ++ (assets1.getD ev.1 default).name) ev.2)
      breakdown0
    let person_tax := people.foldl
      (fun d kv =>
        let pid := kv.1
        let person := kv.2
        let ti := dictGetD wf.tax.person_taxable_income pid 0
        let cg := dictGetD wf.tax.person_cgt_gains pid 0
        let pg := dictGetD wf.tax.person_cgt_property_gains pid 0
        let dv := dictGetD person_dividend_income pid 0
        let income_tax := calculate_uk_income_tax ti
        let cgt := calculate_uk_cgt cg ti false
        let property_cgt := calculate_uk_cgt pg (ti + cg) true
        let dividend_tax := calculate_uk_dividend_tax dv ti
        dictSet d person.name
          { income_tax := income_tax, cgt := cgt, property_cgt := property_cgt,
            dividend_tax := dividend_tax,
            total := round2 (income_tax + cgt + property_cgt + dividend_tax),
            taxable_income := round2 ti, cgt_gains := round2 cg,
            dividends := round2 dv })
      []
    Except.ok
      (⟨assets2, wf.tax.person_tax_free_remaining⟩,
       { age := age, required_income := required_income,
         generated_income := generated_income,
         total_assets := calculate_total_balance assets2,
         asset_balances := assets2.foldl (fun d a => dictSet d a.name a.balance) [],
         income_breakdown := breakdown1,
         shortfall_remaining := max 0 (required_income - generated_income),
         tax_breakdown := person_tax })

/-- The simulated ages, range(current_age, life_expectancy + 1). -/
def simAges (p : SimulationParams) : List ℤ :=
  (List.range (p.life_expectancy + 1 - p.current_age).toNat).map
    (fun (k : ℕ) => p.current_age + (k : ℤ))

/-- The year loop of run_simulation, threading the engine state. -/
def runYears (p : SimulationParams) (people : Dict Person) :
    List ℤ → EngineState → Except Unit (EngineState × List YearRecord)
  | [], st => Except.ok (st, [])
  | age :: rest, st =>
    match yearStep p people age st with
    | Except.error e => Except.error e
    | Except.ok (st', yr) =>
      match runYears p people rest st' with
      | Except.error e => Except.error e
      | Except.ok (st'', yrs) => Except.ok (st'', yr :: yrs)

/-- The value returned by run_simulation: the echoed params and the timeline. -/
structure SimResult where
  params : SimulationParams
  timeline : List YearRecord
  deriving DecidableEq, Repr

/-- engine.py run_simulation. Line 137's private copy of the asset list is the
value binding of the engine state's asset component; the input params value is
only ever read. -/
def run_simulation (p : SimulationParams) : Except Unit SimResult :=
  let people := peopleDict p.people
  let tfr : Dict ℚ := people.map (fun kv => (kv.1, PENSION_TAX_FREE_LIFETIME_LIMIT))
  match runYears p people (simAges p) ⟨p.assets, tfr⟩ with
  | Except.error e => Except.error e
  | Except.ok (_, yrs) => Except.ok ⟨p, yrs⟩

/-- The waterfall drawing step as spec section 4.2 words it: from each asset of the
sorted order in turn, draw min(balance, remaining shortfall, max_annual_withdrawal
or infinity), until the shortfall is fully met or the assets are exhausted — with
no positive-balance guard and no early break. Used to compare the source loop
against the specification text. -/
def specDrawFold : List Asset → ℚ → List ℕ → List Asset × ℚ
  | assets, rem, [] => (assets, rem)
  | assets, rem, i :: rest =>
    let a := assets.getD i default
    let w := drawAmount a rem
    specDrawFold (assets.set i { a with balance := a.balance - w }) (rem - w) rest

/-- A heap of Python Asset objects, addressed by position. -/
abbrev Heap := List Asset

/-- Write the given asset values back at the given heap addresses. -/
def heapWriteAssets (h : Heap) (addrs : List ℕ) (vals : List Asset) : Heap :=
  (addrs.zip vals).foldl (fun h iv => h.set iv.1 iv.2) h

/-- Object-identity model of the year loop's mutations: the private copies live at
copyAddrs; each year the growth updates and the waterfall draws are writes at
those addresses only. On the AttributeError of step 3b (an asset of type general)
the heap is returned as it stands after the growth writes. -/
def heapRunYears (p : SimulationParams) (people : Dict Person) (copyAddrs : List ℕ) :
    List ℤ → Heap → Dict ℚ → Heap
  | [], h, _ => h
  | age :: rest, h, tfr =>
    let cur := copyAddrs.map (fun i => h.getD i default)
    let grown := cur.map (growAsset p.retirement_age age)
    let h1 := heapWriteAssets h copyAddrs grown
    match yearStep p people age ⟨cur, tfr⟩ with
    | Except.error _ => h1
    | Except.ok (st', _) =>
      let h2 := heapWriteAssets h1 copyAddrs st'.assets
      heapRunYears p people copyAddrs rest h2 st'.person_tax_free_remaining

/-- Object-identity model of run_simulation: the caller's Asset objects sit in a
heap at callerAddrs; line 137 allocates the private copies as fresh objects at
the end of the heap, and every balance mutation of the run is a write at a copy
address. Returns the final heap. -/
def heap_run_simulation (h0 : Heap) (callerAddrs : List ℕ)
    (q : SimulationParams) : Heap :=
  let p := { q with assets := callerAddrs.map (fun i => h0.getD i default) }
  let people := peopleDict p.people
  let tfr : Dict ℚ := people.map (fun kv => (kv.1, PENSION_TAX_FREE_LIFETIME_LIMIT))
  let copies := p.assets
  let h1 := h0 ++ copies
  let copyAddrs := (List.range copies.length).map (fun k => h0.length + k)
  heapRunYears p people copyAddrs (simAges p) h1 tfr

/-- A syntactically valid scenario holding one asset of type general: one person,
one 1000-balance GIA, nothing else. -/
def generalAssetParams : SimulationParams :=
  { current_age := 60, retirement_age := 60, life_expectancy := 60,
    inflation_rate := 0, desired_annual_income := 0,
    people := [{ id := "p1", name := "Alice" }],
    assets := [{ id := "g1", name := "GIA", type := AssetType.general,
                 balance := 1000, annual_growth_rate := 0, annual_contribution := 0 }],
    incomes := [], withdrawal_priority := [AssetType.general] }

/-- The scenario of claim C6 and test_pension_tax_free_ufpls: one person owning
100 percent of a 100000 pension, desired income 40000, priority [pension],
zero growth and inflation, current_age = retirement_age = life_expectancy. -/
def pensionScenarioParams : SimulationParams :=
  { current_age := 60, retirement_age := 60, life_expectancy := 60,
    inflation_rate := 0, desired_annual_income := 40000,
    people := [{ id := "p1", name := "Alice" }],
    assets := [{ id := "pen", name := "Pension", type := AssetType.pension,
                 balance := 100000, annual_growth_rate := 0, annual_contribution := 0,
                 owners := [{ person_id := "p1", share := 1 }] }],
    incomes := [], withdrawal_priority := [AssetType.pension] }

/-- A scenario whose life expectancy lies strictly below the current age minus
one, so that the claimed step count life_expectancy - current_age + 1 is negative
while the loop runs zero times. -/
def negativeSpanParams : SimulationParams :=
  { current_age := 50, retirement_age := 50, life_expectancy := 40,
    inflation_rate := 0, desired_annual_income := 0,
    people := [], assets := [], incomes := [],
    withdrawal_priority := [] }

/-- A second scenario holding an asset of type general, used to exhibit that the
timeline shape guarantee fails through the step-3b AttributeError as well. -/
def generalAssetParams2 : SimulationParams :=
  { current_age := 30, retirement_age := 65, life_expectancy := 80,
    inflation_rate := 2, desired_annual_income := 25000,
    people := [{ id := "q1", name := "Bob" }],
    assets := [{ id := "g2", name := "Fund", type := AssetType.general,
                 balance := 5000, annual_growth_rate := 3, annual_contribution := 100 }],
    incomes := [], withdrawal_priority := [AssetType.cash, AssetType.general] }

/-- The cash asset of test_withdrawals, used as a concrete witness input. -/
def c2WitnessAsset : Asset :=
  { id := "1", name := "Cash", type := AssetType.cash, balance := 50000,
    annual_growth_rate := 0, annual_contribution := 0 }

/-- The sequence of _attribute_withdrawal_tax calls a run performs, in order:
each entry is (person id, amount, source asset). -/
def attributionFold (calls : List (String × ℚ × Asset)) (s : TaxState) : TaxState :=
  calls.foldl (fun s c => attribute_withdrawal_tax c.1 c.2.1 c.2.2 s) s

/-- Concrete pension asset for the C4 witness. -/
def c4WitnessAsset : Asset :=
  { id := "pen", name := "Pension", type := AssetType.pension, balance := 100000,
    annual_growth_rate := 0, annual_contribution := 0 }

/-- Concrete tax state for the C4 witness: one person with the full allowance. -/
def c4WitnessState : TaxState :=
  ⟨[("p1", 0)], [("p1", 0)], [("p1", 0)], [("p1", PENSION_TAX_FREE_LIFETIME_LIMIT)]⟩

/-- Concrete isolated asset for the C7 witness (test_basic_growth's ISA). -/
def c7WitnessAsset : Asset :=
  { id := "1", name := "Test ISA", type := AssetType.isa, balance := 100000,
    annual_growth_rate := 5, annual_contribution := 0 }

/-- Concrete params for the C7 witness (test_basic_growth). -/
def c7WitnessParams : SimulationParams :=
  { current_age := 40, retirement_age := 60, life_expectancy := 41,
    inflation_rate := 0, desired_annual_income := 0,
    people := [], assets := [c7WitnessAsset], incomes := [],
    withdrawal_priority := [AssetType.isa] }

/-- The pre-rounding progressive income-tax sum of engine.py lines 32-46, as a
function of the taxable amount and the basic band width. -/
def incomeTaxPre (t b : ℚ) : ℚ :=
  min t b * (20 / 100) +
    min (t - min t b) (HIGHER_RATE_LIMIT - BASIC_RATE_LIMIT) * (40 / 100) +
    (t - min t b - min (t - min t b) (HIGHER_RATE_LIMIT - BASIC_RATE_LIMIT)) * (45 / 100)

/-- The pre-rounding CGT sum of engine.py lines 65-68, as a function of the net
gain, the remaining basic band, and the two rates. -/
def cgtPre (net remB rb rh : ℚ) : ℚ :=
  min net remB * rb + (net - min net remB) * rh

/-- The pre-rounding dividend-tax sum of engine.py lines 84-89, as a function of
the net dividends and the remaining basic and higher band widths. -/
def divPre (net remB remH : ℚ) : ℚ :=
  min net remB * (875 / 10000) + min (net - min net remB) remH * (3375 / 10000) +
    max 0 (net - min net remB - remH) * (3935 / 10000)

/-- The scenario of test_withdrawals, used as the C8 witness input. -/
def c8WitnessParams : SimulationParams :=
  { current_age := 60, retirement_age := 60, life_expectancy := 61,
    inflation_rate := 0, desired_annual_income := 20000,
    people := [], assets := [c2WitnessAsset], incomes := [],
    withdrawal_priority := [AssetType.cash] }

/-- Assets for the C3 counterexample: a cash asset listed before an ISA asset. -/
def c3CxAssets : List Asset :=
  [{ id := "c", name := "Cash", type := AssetType.cash, balance := 10,
     annual_growth_rate := 0, annual_contribution := 0 },
   { id := "i", name := "ISA", type := AssetType.isa, balance := 10,
     annual_growth_rate := 0, annual_contribution := 0 }]

/-- The caller heap for the C9 witness: one cash asset object. -/
def c9WitnessHeap : Heap := [c2WitnessAsset]

/-- An asset with its owners list dropped; two assets equal after erasure agree
on every field the waterfall's draw decisions read. -/
def eraseOwners (a : Asset) : Asset := { a with owners := [] }

/-- engine.py lines 190-195: the ownership loop of the dividend-attribution step,
given the dividend amount of line 184. (In the shipped code this loop is only
reachable once models.Asset carries the dividend_yield field; see C1.) An
ownership entry whose person_id is not a known person is skipped. -/
def attributeDividendOwners (people : Dict Person) (owners : List AssetOwnership)
    (dividends : ℚ) (acc : Dict ℚ) : Dict ℚ :=
  owners.foldl
    (fun acc o =>
      if dictMem people o.person_id then
        dictSet acc o.person_id (dictGetD acc o.person_id 0 + dividends * o.share)
      else acc)
    acc

/-- The people dict for the C10 witness. -/
def c10WitnessPeople : Dict Person := [("p1", { id := "p1", name := "Alice" })]

/-- A cash asset owned by a person id that no person carries, for the C10
witness. -/
def c10WitnessAsset : Asset :=
  { id := "1", name := "Cash", type := AssetType.cash, balance := 50000,
    annual_growth_rate := 0, annual_contribution := 0,
    owners := [{ person_id := "ghost", share := 1 }] }

/-- Claim C1: run_simulation does not terminate normally on every syntactically
valid SimulationParams: on a scenario holding an asset of type general it reaches
the attribute access dividend_yield at engine.py:183, which models.Asset does not
define, and raises AttributeError instead of returning a timeline. -/
theorem c1_general_asset_raises :
    run_simulation generalAssetParams = Except.error () := by
  with_unfolding_all rfl

set_option maxHeartbeats 2000000 in
/-- Claim C6: in the scenario with one person owning 100 percent of a 100000
pension, desired annual income 40000, priority [pension], zero growth and
inflation and current_age = retirement_age, the first (only) year's tax
breakdown for that person has taxable_income 30000 and income_tax 3486. -/
theorem c6_pension_scenario_tax :
    ((run_simulation pensionScenarioParams).toOption.map (fun r =>
      r.timeline.map (fun y => (dictGet? y.tax_breakdown "Alice").map
        (fun tb => (tb.taxable_income, tb.income_tax))))) =
    some [some ((30000 : ℚ), (3486 : ℚ))] := by
  norm_num [run_simulation, runYears, simAges, yearStep, requiredIncome, incomeStep,
    peopleDict, dictSet, dictGet?, dictGetD, dictMem, zeroAccum, growAsset,
    attributeDividendsStep, waterfall, waterfallGo, drawAmount, sortedWithdrawableIdxs,
    withdrawableIdxs, wfKey, priorityRank, attributeAssetWithdrawal,
    attribute_withdrawal_tax, is_tax_free_withdrawal, is_pension_withdrawal,
    is_cgt_asset, is_property_cgt, eventsTotal, calculate_total_balance,
    calculate_uk_income_tax, calculate_uk_cgt, calculate_uk_dividend_tax,
    effective_personal_allowance, round2, round_eq,
    PERSONAL_ALLOWANCE, BASIC_RATE_LIMIT, HIGHER_RATE_LIMIT, PA_TAPER_THRESHOLD,
    CGT_ANNUAL_EXEMPT, DIVIDEND_ALLOWANCE, PENSION_TAX_FREE_LIFETIME_LIMIT,
    List.insertionSort, List.orderedInsert, pensionScenarioParams]
  decide

/-- Claim C8 as stated is false: when life_expectancy lies below current_age the
loop runs zero times although life_expectancy - current_age + 1 is negative, and
on a scenario holding an asset of type general the run aborts with an
AttributeError and returns no timeline at all. -/
theorem c8_counterexample :
    (run_simulation negativeSpanParams).toOption.map (fun r => r.timeline.length)
      = some 0 ∧
    negativeSpanParams.life_expectancy - negativeSpanParams.current_age + 1 = -9 ∧
    run_simulation generalAssetParams2 = Except.error () := by
  refine ⟨by with_unfolding_all rfl, by decide, by with_unfolding_all rfl⟩

lemma eventsTotal_shift (l : List (ℕ × ℚ)) (s : ℚ) :
    l.foldl (fun s e => s + e.2) s = s + eventsTotal l := by
  induction l generalizing s with
  | nil => simp [eventsTotal]
  | cons e t ih =>
    show t.foldl (fun s e => s + e.2) (s + e.2) = s + eventsTotal (e :: t)
    rw [ih]
    show s + e.2 + eventsTotal t = s + t.foldl (fun s e => s + e.2) (0 + e.2)
    rw [ih]
    ring

lemma eventsTotal_cons (e : ℕ × ℚ) (l : List (ℕ × ℚ)) :
    eventsTotal (e :: l) = e.2 + eventsTotal l := by
  show l.foldl (fun s e => s + e.2) (0 + e.2) = e.2 + eventsTotal l
  rw [eventsTotal_shift]
  ring

lemma eventsTotal_append (l₁ l₂ : List (ℕ × ℚ)) :
    eventsTotal (l₁ ++ l₂) = eventsTotal l₁ + eventsTotal l₂ := by
  show (l₁ ++ l₂).foldl (fun s e => s + e.2) 0 = eventsTotal l₁ + eventsTotal l₂
  rw [List.foldl_append, eventsTotal_shift]
  rfl

lemma eventsTotal_reverse (l : List (ℕ × ℚ)) :
    eventsTotal l.reverse = eventsTotal l := by
  induction l with
  | nil => rfl
  | cons e t ih =>
    rw [List.reverse_cons, eventsTotal_append, eventsTotal_cons, ih, eventsTotal_cons]
    show eventsTotal t + (e.2 + 0) = e.2 + eventsTotal t
    ring

lemma drawAmount_le_rem (a : Asset) (rem : ℚ) : drawAmount a rem ≤ rem := by
  rw [drawAmount]
  cases a.max_annual_withdrawal with
  | none => exact min_le_right _ _
  | some c => exact le_trans (min_le_right _ _) (min_le_left _ _)

lemma drawAmount_le_balance (a : Asset) (rem : ℚ) : drawAmount a rem ≤ a.balance := by
  rw [drawAmount]
  cases a.max_annual_withdrawal with
  | none => exact min_le_left _ _
  | some c => exact min_le_left _ _

lemma waterfallGo_spec (people : Dict Person) (idxs : List ℕ) :
    ∀ (assets : List Asset) (rem : ℚ) (evs : List (ℕ × ℚ)) (ts : TaxState),
      0 ≤ rem → (∀ a ∈ assets, 0 ≤ a.balance) →
      0 ≤ (waterfallGo people idxs assets rem evs ts).remaining_shortfall ∧
      eventsTotal (waterfallGo people idxs assets rem evs ts).events =
        eventsTotal evs +
          (rem - (waterfallGo people idxs assets rem evs ts).remaining_shortfall) ∧
      ∀ a ∈ (waterfallGo people idxs assets rem evs ts).assets, 0 ≤ a.balance := by
  induction idxs with
  | nil =>
    intro assets rem evs ts hrem hbal
    simp only [waterfallGo]
    exact ⟨hrem, by rw [eventsTotal_reverse]; ring, hbal⟩
  | cons i rest ih =>
    intro assets rem evs ts hrem hbal
    simp only [waterfallGo]
    by_cases h0 : rem ≤ 0
    · rw [if_pos h0]
      exact ⟨hrem, by rw [eventsTotal_reverse]; ring, hbal⟩
    · rw [if_neg h0]
      by_cases hb : 0 < (assets.getD i default).balance
      · rw [if_pos hb]
        have hbal' : ∀ b ∈ assets.set i
            { assets.getD i default with
              balance := (assets.getD i default).balance -
                drawAmount (assets.getD i default) rem }, 0 ≤ b.balance := by
          intro b hbmem
          rcases List.mem_or_eq_of_mem_set hbmem with hmem | heq
          · exact hbal b hmem
          · rw [heq]
            show 0 ≤ (assets.getD i default).balance - drawAmount (assets.getD i default) rem
            have := drawAmount_le_balance (assets.getD i default) rem
            linarith
        have h := ih _ (rem - drawAmount (assets.getD i default) rem)
          ((i, drawAmount (assets.getD i default) rem) :: evs)
          (attributeAssetWithdrawal people (assets.getD i default)
            (drawAmount (assets.getD i default) rem) ts)
          (by have := drawAmount_le_rem (assets.getD i default) rem; linarith) hbal'
        exact ⟨h.1, by rw [h.2.1, eventsTotal_cons]; ring, h.2.2⟩
      · rw [if_neg hb]
        exact ih assets rem evs ts hrem hbal

/-- Claim C2: for any shortfall computed as max(0, required - generated) before any
withdrawal, the waterfall draws in total at most that shortfall, and when every
asset balance is nonnegative on entry every balance is still nonnegative after
all draws. -/
theorem c2_waterfall_shortfall_bound (people : Dict Person) (priority : List AssetType)
    (required_income generated_income : ℚ) (assets : List Asset) (ts : TaxState)
    (hbal : ∀ a ∈ assets, 0 ≤ a.balance) :
    eventsTotal (waterfall people priority (max 0 (required_income - generated_income))
        assets ts).events ≤ max 0 (required_income - generated_income) ∧
    ∀ a ∈ (waterfall people priority (max 0 (required_income - generated_income))
        assets ts).assets, 0 ≤ a.balance := by
  have h := waterfallGo_spec people
    (sortedWithdrawableIdxs priority assets) assets
    (max 0 (required_income - generated_income)) [] ts (le_max_left _ _) hbal
  rw [waterfall]
  refine ⟨?_, h.2.2⟩
  rw [h.2.1]
  have h1 := h.1
  show eventsTotal ([] : List (ℕ × ℚ)) + _ ≤ _
  simp only [eventsTotal, List.foldl_nil]
  linarith

/-- Witness for c2_waterfall_shortfall_bound at the cash-asset scenario of
test_withdrawals: shortfall 20000 against a 50000 cash asset. -/
theorem c2_waterfall_shortfall_bound_witness :
    (∀ a ∈ [c2WitnessAsset], 0 ≤ a.balance) ∧
    (eventsTotal (waterfall [] [AssetType.cash] (max 0 ((20000 : ℚ) - 0))
        [c2WitnessAsset] ⟨[], [], [], []⟩).events ≤
      max 0 ((20000 : ℚ) - 0) ∧
    ∀ a ∈ (waterfall [] [AssetType.cash] (max 0 ((20000 : ℚ) - 0))
        [c2WitnessAsset] ⟨[], [], [], []⟩).assets,
      0 ≤ a.balance) :=
  ⟨by decide, c2_waterfall_shortfall_bound [] [AssetType.cash] 20000 0 _ _ (by decide)⟩

lemma dictGet?_dictSet_self {α : Type} (d : Dict α) (k : String) (v : α) :
    dictGet? (dictSet d k v) k = some v := by
  induction d with
  | nil => simp [dictSet, dictGet?]
  | cons kv rest ih =>
    by_cases h : kv.1 = k
    · simp [dictSet, dictGet?, h]
    · simp [dictSet, dictGet?, h, ih]

lemma dictGet?_dictSet_ne {α : Type} (d : Dict α) (k : String) (v : α) (k' : String)
    (h : k' ≠ k) : dictGet? (dictSet d k v) k' = dictGet? d k' := by
  induction d with
  | nil =>
    simp only [dictSet, dictGet?]
    rw [if_neg (fun he : k = k' => h he.symm)]
  | cons kv rest ih =>
    simp only [dictSet]
    by_cases h1 : kv.1 = k
    · rw [if_pos h1]
      simp only [dictGet?]
      by_cases h2 : kv.1 = k'
      · exact absurd (h2.symm.trans h1) h
      · rw [if_neg h2, if_neg h2]
    · rw [if_neg h1]
      simp only [dictGet?]
      by_cases h2 : kv.1 = k'
      · rw [if_pos h2, if_pos h2]
      · rw [if_neg h2, if_neg h2, ih]

lemma dictGetD_dictSet_self {α : Type} (d : Dict α) (k : String) (v v₀ : α) :
    dictGetD (dictSet d k v) k v₀ = v := by
  rw [dictGetD, dictGet?_dictSet_self]
  rfl

lemma dictGetD_dictSet_ne {α : Type} (d : Dict α) (k : String) (v v₀ : α) (k' : String)
    (h : k' ≠ k) : dictGetD (dictSet d k v) k' v₀ = dictGetD d k' v₀ := by
  rw [dictGetD, dictGet?_dictSet_ne _ _ _ _ h]
  rfl

/-- One attribution call leaves every person's remaining tax-free allowance
no larger (for nonnegative amounts) and nonnegative. -/
lemma tfr_step (pid : String) (w : ℚ) (a : Asset) (s : TaxState) (q : String)
    (hw : 0 ≤ w) (h0 : 0 ≤ dictGetD s.person_tax_free_remaining q 0) :
    dictGetD (attribute_withdrawal_tax pid w a s).person_tax_free_remaining q 0 ≤
      dictGetD s.person_tax_free_remaining q 0 ∧
    0 ≤ dictGetD (attribute_withdrawal_tax pid w a s).person_tax_free_remaining q 0 := by
  rw [attribute_withdrawal_tax]
  by_cases h1 : is_tax_free_withdrawal a
  · simp only [if_pos h1]
    exact ⟨le_refl _, h0⟩
  · rw [if_neg h1]
    by_cases h2 : is_pension_withdrawal a
    · simp only [if_pos h2]
      by_cases hq : q = pid
      · subst hq
        simp only [dictGetD_dictSet_self]
        have hmin := min_le_right (w * (25 / 100)) (dictGetD s.person_tax_free_remaining q 0)
        have hnn : 0 ≤ min (w * (25 / 100)) (dictGetD s.person_tax_free_remaining q 0) :=
          le_min (by linarith) h0
        exact ⟨by linarith, by linarith⟩
      · simp only [dictGetD_dictSet_ne _ _ _ _ _ hq]
        exact ⟨le_refl _, h0⟩
    · rw [if_neg h2]
      by_cases h3 : is_cgt_asset a
      · simp only [if_pos h3]
        exact ⟨le_refl _, h0⟩
      · rw [if_neg h3]
        by_cases h4 : is_property_cgt a
        · simp only [if_pos h4]
          exact ⟨le_refl _, h0⟩
        · simp only [if_neg h4]
          exact ⟨le_refl _, h0⟩

lemma attributionFold_tfr_antitone (calls : List (String × ℚ × Asset)) :
    ∀ (s : TaxState) (q : String), (∀ c ∈ calls, 0 ≤ c.2.1) →
      0 ≤ dictGetD s.person_tax_free_remaining q 0 →
      dictGetD (attributionFold calls s).person_tax_free_remaining q 0 ≤
        dictGetD s.person_tax_free_remaining q 0 ∧
      0 ≤ dictGetD (attributionFold calls s).person_tax_free_remaining q 0 := by
  induction calls with
  | nil =>
    intro s q _ h0
    exact ⟨le_refl _, h0⟩
  | cons c rest ih =>
    intro s q hw h0
    have hstep := tfr_step c.1 c.2.1 c.2.2 s q (hw c (by simp)) h0
    have hrest := ih (attribute_withdrawal_tax c.1 c.2.1 c.2.2 s) q
      (fun d hd => hw d (by simp [hd])) hstep.2
    rw [attributionFold] at *
    simp only [List.foldl_cons]
    exact ⟨le_trans hrest.1 hstep.1, hrest.2⟩

/-- Claim C4: on a pension withdrawal of amount w for person p the tax-free
portion is min(w × 0.25, remaining), hence at most 25 percent of w and at most
the remaining lifetime allowance; the taxable portion w minus it is added to p's
taxable income; the remaining allowance decreases by exactly the tax-free
portion; across any sequence of attribution calls with nonnegative amounts each
person's remaining allowance is non-increasing; and once the remaining allowance
is 0 a further pension withdrawal is fully taxable. -/
theorem c4_pension_tax_free_allowance (p : String) (w : ℚ) (a : Asset) (s : TaxState)
    (hp : a.type = AssetType.pension) (hw : 0 ≤ w) :
    (dictGetD (attribute_withdrawal_tax p w a s).person_tax_free_remaining p 0 =
      dictGetD s.person_tax_free_remaining p 0 -
        min (w * (25 / 100)) (dictGetD s.person_tax_free_remaining p 0)) ∧
    (min (w * (25 / 100)) (dictGetD s.person_tax_free_remaining p 0) ≤ w * (25 / 100)) ∧
    (min (w * (25 / 100)) (dictGetD s.person_tax_free_remaining p 0) ≤
      dictGetD s.person_tax_free_remaining p 0) ∧
    (dictGetD (attribute_withdrawal_tax p w a s).person_taxable_income p 0 =
      dictGetD s.person_taxable_income p 0 +
        (w - min (w * (25 / 100)) (dictGetD s.person_tax_free_remaining p 0))) ∧
    (dictGetD s.person_tax_free_remaining p 0 = 0 →
      dictGetD (attribute_withdrawal_tax p w a s).person_taxable_income p 0 =
        dictGetD s.person_taxable_income p 0 + w) ∧
    (∀ (calls : List (String × ℚ × Asset)) (t : TaxState) (q : String),
      (∀ c ∈ calls, 0 ≤ c.2.1) → 0 ≤ dictGetD t.person_tax_free_remaining q 0 →
      dictGetD (attributionFold calls t).person_tax_free_remaining q 0 ≤
        dictGetD t.person_tax_free_remaining q 0) := by
  have hfree : ¬ is_tax_free_withdrawal a := by
    rw [is_tax_free_withdrawal, hp]
    simp
  have hpen : is_pension_withdrawal a := by
    rw [is_pension_withdrawal, hp]
    decide
  refine ⟨?_, min_le_left _ _, min_le_right _ _, ?_, ?_, ?_⟩
  · rw [attribute_withdrawal_tax, if_neg hfree, if_pos hpen]
    simp only [dictGetD_dictSet_self]
  · rw [attribute_withdrawal_tax, if_neg hfree, if_pos hpen]
    simp only [dictGetD_dictSet_self]
  · intro hz
    rw [attribute_withdrawal_tax, if_neg hfree, if_pos hpen]
    simp only [dictGetD_dictSet_self, hz]
    rw [min_eq_right (by linarith : (0 : ℚ) ≤ w * (25 / 100))]
    ring
  · intro calls t q hc h0
    exact (attributionFold_tfr_antitone calls t q hc h0).1

/-- Witness for c4_pension_tax_free_allowance: a 40000 pension withdrawal for a
person holding the full lifetime allowance. -/
theorem c4_pension_tax_free_allowance_witness :
    c4WitnessAsset.type = AssetType.pension ∧ (0 : ℚ) ≤ 40000 ∧
    dictGetD (attribute_withdrawal_tax "p1" 40000 c4WitnessAsset
        c4WitnessState).person_tax_free_remaining "p1" 0 =
      dictGetD c4WitnessState.person_tax_free_remaining "p1" 0 -
        min (40000 * (25 / 100)) (dictGetD c4WitnessState.person_tax_free_remaining "p1" 0) :=
  ⟨rfl, by decide,
    (c4_pension_tax_free_allowance "p1" 40000 c4WitnessAsset c4WitnessState rfl (by decide)).1⟩

/-- The growth step in closed form: balance × (1 + growth rate), plus the
contribution exactly when the age is below the retirement age. -/
lemma growAsset_formula (ra age : ℤ) (a : Asset) :
    growAsset ra age a =
      { a with balance := a.balance * (1 + a.annual_growth_rate / 100) +
          (if age < ra then a.annual_contribution else 0) } := by
  rw [growAsset]
  by_cases h : age < ra
  · simp only [if_pos h]
    cases a
    simp only [Asset.mk.injEq, and_true, true_and]
    ring
  · simp only [if_neg h]
    cases a
    simp only [Asset.mk.injEq, and_true, true_and]
    ring

/-- Claim C7: in a year with no withdrawal (the shortfall is not positive) and a
single asset that is not of the faulting general type, the year step succeeds and
the asset's balance afterwards is balance × (1 + growth) plus the contribution
exactly when the simulated age is below the retirement age. -/
theorem c7_growth_contribution (p : SimulationParams) (people : Dict Person)
    (age : ℤ) (st : EngineState) (a : Asset)
    (hassets : st.assets = [a])
    (hng : a.type ≠ AssetType.general)
    (hnosf : requiredIncome p age - (incomeStep p people age).1 ≤ 0) :
    ∃ st' yr, yearStep p people age st = Except.ok (st', yr) ∧
      st'.assets = [{ a with balance := a.balance * (1 + a.annual_growth_rate / 100) +
        (if age < p.retirement_age then a.annual_contribution else 0) }] := by
  have hng' : ¬ (growAsset p.retirement_age age a).type = AssetType.general := by
    rw [growAsset_formula]
    exact hng
  have hdiv : attributeDividendsStep (st.assets.map (growAsset p.retirement_age age)) =
      Except.ok () := by
    rw [hassets]
    simp only [List.map_cons, List.map_nil, attributeDividendsStep]
    rw [if_neg hng']
  have hsf : max 0 (requiredIncome p age - (incomeStep p people age).1) = 0 :=
    max_eq_left hnosf
  rw [yearStep, hdiv]
  simp only [hsf]
  rw [if_neg (lt_irrefl 0)]
  refine ⟨_, _, rfl, ?_⟩
  show st.assets.map (growAsset p.retirement_age age) = _
  rw [hassets]
  simp only [List.map_cons, List.map_nil]
  rw [growAsset_formula]

/-- Witness for c7_growth_contribution at the test_basic_growth scenario. -/
theorem c7_growth_contribution_witness :
    (({ assets := [c7WitnessAsset], person_tax_free_remaining := [] } : EngineState).assets
        = [c7WitnessAsset] ∧
      c7WitnessAsset.type ≠ AssetType.general ∧
      requiredIncome c7WitnessParams 40 - (incomeStep c7WitnessParams [] 40).1 ≤ 0) ∧
    ∃ st' yr, yearStep c7WitnessParams [] 40
        { assets := [c7WitnessAsset], person_tax_free_remaining := [] } =
        Except.ok (st', yr) ∧
      st'.assets = [{ c7WitnessAsset with
        balance := c7WitnessAsset.balance * (1 + c7WitnessAsset.annual_growth_rate / 100) +
          (if (40 : ℤ) < c7WitnessParams.retirement_age then
            c7WitnessAsset.annual_contribution else 0) }] :=
  ⟨⟨rfl, by decide, by with_unfolding_all decide⟩,
    c7_growth_contribution c7WitnessParams [] 40 _ c7WitnessAsset rfl (by decide)
      (by with_unfolding_all decide)⟩

lemma round2_mono {x y : ℚ} (h : x ≤ y) : round2 x ≤ round2 y := by
  rw [round2, round2]
  have hr : round (100 * x) ≤ round (100 * y) := by
    rw [round_eq, round_eq]
    exact Int.floor_le_floor (by linarith)
  have hc : ((round (100 * x) : ℤ) : ℚ) ≤ ((round (100 * y) : ℤ) : ℚ) :=
    Int.cast_le.mpr hr
  linarith

lemma round2_zero : round2 0 = 0 := by
  rw [round2]
  norm_num

lemma round2_nonneg {x : ℚ} (h : 0 ≤ x) : 0 ≤ round2 x := by
  have := round2_mono h
  rw [round2_zero] at this
  exact this

lemma epa_nonneg (i : ℚ) : 0 ≤ effective_personal_allowance i := by
  rw [effective_personal_allowance]
  split_ifs with h
  · exact le_max_left _ _
  · rw [PERSONAL_ALLOWANCE]
    norm_num

lemma epa_le (i : ℚ) : effective_personal_allowance i ≤ PERSONAL_ALLOWANCE := by
  rw [effective_personal_allowance]
  split_ifs with h
  · apply max_le
    · rw [PERSONAL_ALLOWANCE]
      norm_num
    · have hmin : (0 : ℚ) ≤ min PERSONAL_ALLOWANCE ((i - PA_TAPER_THRESHOLD) / 2) := by
        apply le_min
        · rw [PERSONAL_ALLOWANCE]
          norm_num
        · rw [PA_TAPER_THRESHOLD] at h ⊢
          linarith
      linarith
  · exact le_refl _

lemma epa_of_le_threshold {i : ℚ} (h : i ≤ PA_TAPER_THRESHOLD) :
    effective_personal_allowance i = PERSONAL_ALLOWANCE := by
  rw [effective_personal_allowance, if_neg (not_lt.mpr h)]

lemma epa_pair {i j : ℚ} (h : i ≤ j) :
    effective_personal_allowance j ≤ effective_personal_allowance i ∧
    effective_personal_allowance i ≤ effective_personal_allowance j + (j - i) / 2 := by
  by_cases hi : PA_TAPER_THRESHOLD < i
  · have hj : PA_TAPER_THRESHOLD < j := lt_of_lt_of_le hi h
    rw [effective_personal_allowance, effective_personal_allowance,
      if_pos hi, if_pos hj]
    rw [PERSONAL_ALLOWANCE] at *
    rw [PA_TAPER_THRESHOLD] at hi hj ⊢
    rw [min_def, min_def, max_def, max_def]
    split_ifs <;> constructor <;> linarith
  · by_cases hj : PA_TAPER_THRESHOLD < j
    · rw [effective_personal_allowance, effective_personal_allowance,
        if_neg hi, if_pos hj]
      rw [PERSONAL_ALLOWANCE] at *
      rw [PA_TAPER_THRESHOLD] at hi hj ⊢
      rw [min_def, max_def]
      split_ifs <;> constructor <;> linarith
    · rw [epa_of_le_threshold (le_of_not_lt hi), epa_of_le_threshold (le_of_not_lt hj)]
      exact ⟨le_refl _, by linarith⟩

lemma income_tax_eq (i : ℚ) (h : ¬ i ≤ 0) :
    calculate_uk_income_tax i =
      round2 (incomeTaxPre (max 0 (i - effective_personal_allowance i))
        (max 0 (BASIC_RATE_LIMIT - effective_personal_allowance i))) := by
  simp only [calculate_uk_income_tax, incomeTaxPre, if_neg h]

lemma incomeTaxPre_nonneg {t b : ℚ} (ht : 0 ≤ t) (hb : 0 ≤ b) :
    0 ≤ incomeTaxPre t b := by
  rw [incomeTaxPre, HIGHER_RATE_LIMIT, BASIC_RATE_LIMIT]
  rw [min_def, min_def]
  split_ifs <;> linarith

lemma incomeTaxPre_mono {t b t' b' : ℚ} (ht : 0 ≤ t) (hb : 0 ≤ b)
    (h1 : t ≤ t') (h2 : b ≤ b') (h3 : 5 * (b' - b) ≤ 4 * (t' - t)) :
    incomeTaxPre t b ≤ incomeTaxPre t' b' := by
  rw [incomeTaxPre, incomeTaxPre, HIGHER_RATE_LIMIT, BASIC_RATE_LIMIT]
  rw [min_def, min_def, min_def, min_def]
  split_ifs <;> linarith

lemma income_tax_nonneg (x : ℚ) : 0 ≤ calculate_uk_income_tax x := by
  by_cases h : x ≤ 0
  · rw [calculate_uk_income_tax, if_pos h]
  · rw [income_tax_eq x h]
    exact round2_nonneg (incomeTaxPre_nonneg (le_max_left _ _) (le_max_left _ _))

lemma income_tax_mono {x y : ℚ} (hxy : x ≤ y) :
    calculate_uk_income_tax x ≤ calculate_uk_income_tax y := by
  by_cases hx : x ≤ 0
  · rw [calculate_uk_income_tax, if_pos hx]
    exact income_tax_nonneg y
  · have hy : ¬ y ≤ 0 := fun hy => hx (le_trans hxy hy)
    rw [income_tax_eq x hx, income_tax_eq y hy]
    apply round2_mono
    have hpair := epa_pair hxy
    have hynn := epa_nonneg y
    have hxle := epa_le x
    have hyle := epa_le y
    have hBpos : effective_personal_allowance x ≤ BASIC_RATE_LIMIT ∧
        effective_personal_allowance y ≤ BASIC_RATE_LIMIT := by
      rw [BASIC_RATE_LIMIT]
      rw [PERSONAL_ALLOWANCE] at hxle hyle
      constructor <;> linarith
    have hbx : max 0 (BASIC_RATE_LIMIT - effective_personal_allowance x) =
        BASIC_RATE_LIMIT - effective_personal_allowance x :=
      max_eq_right (by linarith [hBpos.1])
    have hby : max 0 (BASIC_RATE_LIMIT - effective_personal_allowance y) =
        BASIC_RATE_LIMIT - effective_personal_allowance y :=
      max_eq_right (by linarith [hBpos.2])
    apply incomeTaxPre_mono (le_max_left _ _) (le_max_left _ _)
    · apply max_le_max (le_refl 0)
      linarith [hpair.1]
    · apply max_le_max (le_refl 0)
      linarith [hpair.1]
    · rw [hbx, hby]
      by_cases hy100 : y ≤ PA_TAPER_THRESHOLD
      · have hx100 : x ≤ PA_TAPER_THRESHOLD := le_trans hxy hy100
        rw [epa_of_le_threshold hx100, epa_of_le_threshold hy100]
        have hmax : max 0 (x - PERSONAL_ALLOWANCE) ≤ max 0 (y - PERSONAL_ALLOWANCE) :=
          max_le_max (le_refl 0) (by linarith)
        linarith
      · push_neg at hy100
        have hty : max 0 (y - effective_personal_allowance y) =
            y - effective_personal_allowance y := by
          apply max_eq_right
          rw [PA_TAPER_THRESHOLD] at hy100
          rw [PERSONAL_ALLOWANCE] at hyle
          linarith
        rw [hty]
        by_cases htx : x - effective_personal_allowance x ≤ 0
        · rw [max_eq_left htx]
          rw [PA_TAPER_THRESHOLD] at hy100
          rw [PERSONAL_ALLOWANCE] at hxle hyle
          linarith
        · push_neg at htx
          rw [max_eq_right (le_of_lt htx)]
          linarith [hpair.1, hpair.2]

lemma cgt_eq (g inc : ℚ) (prop : Bool) (h : ¬ max 0 (g - CGT_ANNUAL_EXEMPT) ≤ 0) :
    calculate_uk_cgt g inc prop =
      round2 (cgtPre (max 0 (g - CGT_ANNUAL_EXEMPT)) (max 0 (BASIC_RATE_LIMIT - inc))
        (if prop then 18 / 100 else 10 / 100) (if prop then 24 / 100 else 20 / 100)) := by
  simp only [calculate_uk_cgt, cgtPre, if_neg h]

lemma cgtPre_nonneg {net remB rb rh : ℚ} (hn : 0 ≤ net) (hB : 0 ≤ remB)
    (hrb : 0 ≤ rb) (hrh : 0 ≤ rh) : 0 ≤ cgtPre net remB rb rh := by
  rw [cgtPre]
  have h1 : 0 ≤ min net remB := le_min hn hB
  have h2 : min net remB ≤ net := min_le_left _ _
  have := mul_nonneg h1 hrb
  have := mul_nonneg (by linarith : (0 : ℚ) ≤ net - min net remB) hrh
  linarith

lemma cgtPre_mono {net net' remB rb rh : ℚ} (h : net ≤ net')
    (hrb : 0 ≤ rb) (hrh : 0 ≤ rh) :
    cgtPre net remB rb rh ≤ cgtPre net' remB rb rh := by
  rw [cgtPre, cgtPre]
  have hm : min net remB ≤ min net' remB := min_le_min h (le_refl _)
  have hr : net - min net remB ≤ net' - min net' remB := by
    rw [min_def, min_def]
    split_ifs <;> linarith
  exact add_le_add (mul_le_mul_of_nonneg_right hm hrb)
    (mul_le_mul_of_nonneg_right hr hrh)

lemma cgt_nonneg (g inc : ℚ) (prop : Bool) : 0 ≤ calculate_uk_cgt g inc prop := by
  by_cases h : max 0 (g - CGT_ANNUAL_EXEMPT) ≤ 0
  · simp only [calculate_uk_cgt, if_pos h]
    exact le_refl 0
  · rw [cgt_eq g inc prop h]
    apply round2_nonneg
    apply cgtPre_nonneg (le_max_left _ _) (le_max_left _ _)
    · split_ifs <;> norm_num
    · split_ifs <;> norm_num

lemma cgt_mono {g g' : ℚ} (inc : ℚ) (prop : Bool) (h : g ≤ g') :
    calculate_uk_cgt g inc prop ≤ calculate_uk_cgt g' inc prop := by
  by_cases h1 : max 0 (g - CGT_ANNUAL_EXEMPT) ≤ 0
  · simp only [calculate_uk_cgt, if_pos h1]
    exact cgt_nonneg g' inc prop
  · have h2 : ¬ max 0 (g' - CGT_ANNUAL_EXEMPT) ≤ 0 := by
      intro hc
      exact h1 (le_trans (max_le_max (le_refl 0) (by linarith)) hc)
    rw [cgt_eq g inc prop h1, cgt_eq g' inc prop h2]
    apply round2_mono
    apply cgtPre_mono (max_le_max (le_refl 0) (by linarith))
    · split_ifs <;> norm_num
    · split_ifs <;> norm_num

lemma dividend_eq (d inc : ℚ) (h : ¬ max 0 (d - DIVIDEND_ALLOWANCE) ≤ 0) :
    calculate_uk_dividend_tax d inc =
      round2 (divPre (max 0 (d - DIVIDEND_ALLOWANCE)) (max 0 (BASIC_RATE_LIMIT - inc))
        (max 0 (HIGHER_RATE_LIMIT - max BASIC_RATE_LIMIT inc))) := by
  simp only [calculate_uk_dividend_tax, divPre, if_neg h]

lemma divPre_nonneg {net remB remH : ℚ} (hn : 0 ≤ net) (hB : 0 ≤ remB)
    (hH : 0 ≤ remH) : 0 ≤ divPre net remB remH := by
  rw [divPre, min_def, min_def, max_def]
  split_ifs <;> linarith

lemma divPre_mono {net net' remB remH : ℚ} (h : net ≤ net') (hB : 0 ≤ remB)
    (hH : 0 ≤ remH) : divPre net remB remH ≤ divPre net' remB remH := by
  rw [divPre, divPre, min_def, min_def, min_def, min_def, max_def, max_def]
  split_ifs <;> linarith

lemma dividend_nonneg (d inc : ℚ) : 0 ≤ calculate_uk_dividend_tax d inc := by
  by_cases h : max 0 (d - DIVIDEND_ALLOWANCE) ≤ 0
  · simp only [calculate_uk_dividend_tax, if_pos h]
    exact le_refl 0
  · rw [dividend_eq d inc h]
    exact round2_nonneg (divPre_nonneg (le_max_left _ _) (le_max_left _ _)
      (le_max_left _ _))

lemma dividend_mono {d d' : ℚ} (inc : ℚ) (h : d ≤ d') :
    calculate_uk_dividend_tax d inc ≤ calculate_uk_dividend_tax d' inc := by
  by_cases h1 : max 0 (d - DIVIDEND_ALLOWANCE) ≤ 0
  · simp only [calculate_uk_dividend_tax, if_pos h1]
    exact dividend_nonneg d' inc
  · have h2 : ¬ max 0 (d' - DIVIDEND_ALLOWANCE) ≤ 0 := by
      intro hc
      exact h1 (le_trans (max_le_max (le_refl 0) (by linarith)) hc)
    rw [dividend_eq d inc h1, dividend_eq d' inc h2]
    exact round2_mono (divPre_mono (max_le_max (le_refl 0) (by linarith))
      (le_max_left _ _) (le_max_left _ _))

/-- Claim C5: the three tax calculators return nonnegative values and are
monotonically non-decreasing in their primary taxed amount, the other arguments
held fixed. -/
theorem c5_tax_functions_nonneg_monotone :
    (∀ x : ℚ, 0 ≤ x → 0 ≤ calculate_uk_income_tax x) ∧
    (∀ x y : ℚ, 0 ≤ x → x ≤ y → calculate_uk_income_tax x ≤ calculate_uk_income_tax y) ∧
    (∀ g inc : ℚ, ∀ prop : Bool, 0 ≤ g → 0 ≤ inc → 0 ≤ calculate_uk_cgt g inc prop) ∧
    (∀ g g' inc : ℚ, ∀ prop : Bool, 0 ≤ g → g ≤ g' →
      calculate_uk_cgt g inc prop ≤ calculate_uk_cgt g' inc prop) ∧
    (∀ d inc : ℚ, 0 ≤ d → 0 ≤ inc → 0 ≤ calculate_uk_dividend_tax d inc) ∧
    (∀ d d' inc : ℚ, 0 ≤ d → d ≤ d' →
      calculate_uk_dividend_tax d inc ≤ calculate_uk_dividend_tax d' inc) :=
  ⟨fun x _ => income_tax_nonneg x,
   fun _ _ _ h => income_tax_mono h,
   fun g inc prop _ _ => cgt_nonneg g inc prop,
   fun _ _ inc prop _ h => cgt_mono inc prop h,
   fun d inc _ _ => dividend_nonneg d inc,
   fun _ _ inc _ h => dividend_mono inc h⟩

/-- Witness for c5_tax_functions_nonneg_monotone at concrete amounts. -/
theorem c5_tax_functions_nonneg_monotone_witness :
    ((0 : ℚ) ≤ 30000 ∧ (30000 : ℚ) ≤ 50000) ∧
    (0 ≤ calculate_uk_income_tax 30000 ∧
      calculate_uk_income_tax 30000 ≤ calculate_uk_income_tax 50000 ∧
      0 ≤ calculate_uk_cgt 30000 0 false ∧
      calculate_uk_cgt 30000 0 false ≤ calculate_uk_cgt 50000 0 false ∧
      0 ≤ calculate_uk_dividend_tax 30000 0 ∧
      calculate_uk_dividend_tax 30000 0 ≤ calculate_uk_dividend_tax 50000 0) :=
  ⟨⟨by norm_num, by norm_num⟩,
   ⟨c5_tax_functions_nonneg_monotone.1 30000 (by norm_num),
    c5_tax_functions_nonneg_monotone.2.1 30000 50000 (by norm_num) (by norm_num),
    c5_tax_functions_nonneg_monotone.2.2.1 30000 0 false (by norm_num) (by norm_num),
    c5_tax_functions_nonneg_monotone.2.2.2.1 30000 50000 0 false (by norm_num) (by norm_num),
    c5_tax_functions_nonneg_monotone.2.2.2.2.1 30000 0 (by norm_num) (by norm_num),
    c5_tax_functions_nonneg_monotone.2.2.2.2.2 30000 50000 0 (by norm_num) (by norm_num)⟩⟩

lemma list_set_getElem_self {α : Type} (l : List α) (i : ℕ) (x : α)
    (hx : ∀ h : i < l.length, l[i] = x) : l.set i x = l := by
  by_cases h : i < l.length
  · apply List.ext_getElem?
    intro j
    by_cases hj : j = i
    · subst hj
      rw [List.getElem?_set_self]
      · rw [List.getElem?_eq_getElem h, hx h]
      · exact h
    · rw [List.getElem?_set_ne (fun he => hj he.symm)]
  · exact List.set_eq_of_length_le (le_of_not_lt h)

lemma growAsset_type (ra age : ℤ) (a : Asset) : (growAsset ra age a).type = a.type := rfl

lemma grown_map_type (ra age : ℤ) (l : List Asset) :
    (l.map (growAsset ra age)).map (fun a => a.type) = l.map (fun a => a.type) := by
  rw [List.map_map]
  rfl

lemma set_balance_map_type (assets : List Asset) (i : ℕ) (w : ℚ) :
    (assets.set i { assets.getD i default with balance := w }).map (fun a => a.type) =
      assets.map (fun a => a.type) := by
  rw [List.map_set]
  apply list_set_getElem_self
  intro h
  have hlen : i < assets.length := by simpa using h
  have hg : (assets.getD i default).type = assets[i].type := by
    rw [List.getD_eq_getElem assets default hlen]
  rw [List.getElem_map]
  exact hg.symm

lemma waterfallGo_map_type (people : Dict Person) (idxs : List ℕ) :
    ∀ (assets : List Asset) (rem : ℚ) (evs : List (ℕ × ℚ)) (ts : TaxState),
      (waterfallGo people idxs assets rem evs ts).assets.map (fun a => a.type) =
        assets.map (fun a => a.type) := by
  induction idxs with
  | nil =>
    intro assets rem evs ts
    rfl
  | cons i rest ih =>
    intro assets rem evs ts
    simp only [waterfallGo]
    by_cases h0 : rem ≤ 0
    · rw [if_pos h0]
    · rw [if_neg h0]
      by_cases hb : 0 < (assets.getD i default).balance
      · rw [if_pos hb]
        rw [ih]
        exact set_balance_map_type assets i _
      · rw [if_neg hb]
        exact ih assets rem evs ts

lemma attributeDividendsStep_ok (l : List Asset)
    (h : ∀ a ∈ l, a.type ≠ AssetType.general) :
    attributeDividendsStep l = Except.ok () := by
  induction l with
  | nil => rfl
  | cons a rest ih =>
    rw [attributeDividendsStep, if_neg (h a (by simp))]
    exact ih fun b hb => h b (by simp [hb])

lemma yearStep_ok (p : SimulationParams) (people : Dict Person) (age : ℤ)
    (st : EngineState) (h : ∀ a ∈ st.assets, a.type ≠ AssetType.general) :
    ∃ st' yr, yearStep p people age st = Except.ok (st', yr) ∧ yr.age = age ∧
      st'.assets.map (fun a => a.type) = st.assets.map (fun a => a.type) := by
  have htypes : ∀ a ∈ st.assets.map (growAsset p.retirement_age age),
      a.type ≠ AssetType.general := by
    intro a ha
    rcases List.mem_map.mp ha with ⟨b, hb, rfl⟩
    rw [growAsset_type]
    exact h b hb
  have hdiv := attributeDividendsStep_ok _ htypes
  rw [yearStep, hdiv]
  refine ⟨_, _, rfl, rfl, ?_⟩
  by_cases hsf : 0 < max 0 (requiredIncome p age - (incomeStep p people age).1)
  · show (if 0 < max 0 (requiredIncome p age - (incomeStep p people age).1) then _
      else _ : WfResult).assets.map (fun a => a.type) = _
    rw [if_pos hsf]
    rw [waterfall, waterfallGo_map_type]
    exact grown_map_type _ _ _
  · show (if 0 < max 0 (requiredIncome p age - (incomeStep p people age).1) then _
      else _ : WfResult).assets.map (fun a => a.type) = _
    rw [if_neg hsf]
    exact grown_map_type _ _ _

lemma runYears_ok (p : SimulationParams) (people : Dict Person) (ages : List ℤ) :
    ∀ st : EngineState, (∀ a ∈ st.assets, a.type ≠ AssetType.general) →
      ∃ st' recs, runYears p people ages st = Except.ok (st', recs) ∧
        recs.map (fun yr => yr.age) = ages := by
  induction ages with
  | nil =>
    intro st _
    exact ⟨st, [], rfl, rfl⟩
  | cons age rest ih =>
    intro st h
    obtain ⟨st1, yr, hstep, hage, htypes⟩ := yearStep_ok p people age st h
    have h1 : ∀ a ∈ st1.assets, a.type ≠ AssetType.general := by
      intro a ha
      have : a.type ∈ st1.assets.map (fun a => a.type) := List.mem_map_of_mem _ ha
      rw [htypes] at this
      rcases List.mem_map.mp this with ⟨b, hb, he⟩
      rw [← he]
      exact h b hb
    obtain ⟨st2, recs, hrun, hmap⟩ := ih st1 h1
    refine ⟨st2, yr :: recs, ?_, ?_⟩
    · simp only [runYears, hstep, hrun]
    · rw [List.map_cons, hmap, hage]

/-- Claim C8 amended: for params with life_expectancy ≥ current_age - 1 (the loop
runs life_expectancy - current_age + 1 ≥ 0 times) and no asset of the faulting
general type, run_simulation succeeds, echoes the input params in its result,
runs one year per age, and the timeline carries exactly the ages
current_age..life_expectancy in strictly ascending order,
life_expectancy - current_age + 1 of them. -/
theorem c8_timeline_shape (p : SimulationParams)
    (h1 : p.current_age - 1 ≤ p.life_expectancy)
    (h2 : ∀ a ∈ p.assets, a.type ≠ AssetType.general) :
    ∃ r, run_simulation p = Except.ok r ∧
      r.params = p ∧
      r.timeline.map (fun yr => yr.age) = simAges p ∧
      ((r.timeline.length : ℤ) = p.life_expectancy - p.current_age + 1) ∧
      (r.timeline.map (fun yr => yr.age)).Pairwise (· < ·) ∧
      (∀ a : ℤ, a ∈ r.timeline.map (fun yr => yr.age) ↔
        p.current_age ≤ a ∧ a ≤ p.life_expectancy) := by
  obtain ⟨st', recs, hrun, hmap⟩ := runYears_ok p (peopleDict p.people) (simAges p)
    ⟨p.assets, (peopleDict p.people).map (fun kv => (kv.1, PENSION_TAX_FREE_LIFETIME_LIMIT))⟩
    h2
  have hslen : (simAges p).length = (p.life_expectancy + 1 - p.current_age).toNat := by
    rw [simAges, List.length_map, List.length_range]
  refine ⟨⟨p, recs⟩, ?_, rfl, hmap, ?_, ?_, ?_⟩
  · rw [run_simulation, hrun]
  · have hlen : recs.length = (simAges p).length := by
      rw [← hmap, List.length_map]
    rw [hlen, hslen]
    omega
  · rw [hmap, simAges]
    exact List.Pairwise.map _ (fun a b (hab : a < b) => by omega)
      (List.pairwise_lt_range _)
  · intro a
    rw [hmap, simAges]
    constructor
    · intro ha
      rcases List.mem_map.mp ha with ⟨k, hk, rfl⟩
      have := List.mem_range.mp hk
      omega
    · intro ⟨hal, har⟩
      apply List.mem_map.mpr
      refine ⟨(a - p.current_age).toNat, List.mem_range.mpr ?_, ?_⟩
      · omega
      · omega

/-- Witness for c8_timeline_shape at the scenario of test_withdrawals. -/
theorem c8_timeline_shape_witness :
    ((c8WitnessParams.current_age - 1 ≤ c8WitnessParams.life_expectancy) ∧
      (∀ a ∈ c8WitnessParams.assets, a.type ≠ AssetType.general)) ∧
    ∃ r, run_simulation c8WitnessParams = Except.ok r ∧
      r.params = c8WitnessParams ∧
      r.timeline.map (fun yr => yr.age) = simAges c8WitnessParams ∧
      ((r.timeline.length : ℤ) =
        c8WitnessParams.life_expectancy - c8WitnessParams.current_age + 1) ∧
      (r.timeline.map (fun yr => yr.age)).Pairwise (· < ·) ∧
      (∀ a : ℤ, a ∈ r.timeline.map (fun yr => yr.age) ↔
        c8WitnessParams.current_age ≤ a ∧ a ≤ c8WitnessParams.life_expectancy) :=
  ⟨⟨by decide, by decide⟩,
    c8_timeline_shape c8WitnessParams (by decide) (by decide)⟩

lemma filter_orderedInsert_key {α : Type} (key : α → ℕ) (v : ℕ) (a : α) (l : List α) :
    (l.orderedInsert (fun x y => key x ≤ key y) a).filter (fun x => key x = v) =
      if key a = v then a :: l.filter (fun x => key x = v)
      else l.filter (fun x => key x = v) := by
  induction l with
  | nil =>
    rw [List.orderedInsert]
    by_cases hav : key a = v
    · simp [List.filter, hav]
    · simp [List.filter, hav]
  | cons b l ih =>
    rw [List.orderedInsert]
    by_cases hab : key a ≤ key b
    · rw [if_pos hab]
      by_cases hav : key a = v
      · rw [if_pos hav, List.filter_cons_of_pos (by simp [hav])]
      · rw [if_neg hav, List.filter_cons_of_neg (by simp [hav])]
    · rw [if_neg hab]
      have hba : key b < key a := lt_of_not_le hab
      by_cases hbv : key b = v
      · have hav : ¬ key a = v := by
          intro hv
          rw [hv, ← hbv] at hba
          exact lt_irrefl _ hba
        rw [List.filter_cons_of_pos (by simp [hbv]), ih, if_neg hav, if_neg hav,
          List.filter_cons_of_pos (by simp [hbv])]
      · rw [List.filter_cons_of_neg (by simp [hbv]), ih,
          List.filter_cons_of_neg (by simp [hbv])]

lemma filter_insertionSort_key {α : Type} (key : α → ℕ) (v : ℕ) (l : List α) :
    (l.insertionSort (fun x y => key x ≤ key y)).filter (fun x => key x = v) =
      l.filter (fun x => key x = v) := by
  induction l with
  | nil => rfl
  | cons a l ih =>
    rw [List.insertionSort, filter_orderedInsert_key, ih]
    by_cases hav : key a = v
    · rw [if_pos hav, List.filter_cons_of_pos (by simp [hav])]
    · rw [if_neg hav, List.filter_cons_of_neg (by simp [hav])]

lemma set_getD_self (assets : List Asset) (i : ℕ) :
    assets.set i (assets.getD i default) = assets := by
  apply list_set_getElem_self
  intro h
  rw [List.getD_eq_getElem assets default h]

lemma asset_update_sub_zero (a : Asset) :
    ({ a with balance := a.balance - 0 } : Asset) = a := by
  cases a
  simp

lemma drawAmount_nonpos_balance (a : Asset) (rem : ℚ) (hb : a.balance ≤ 0)
    (hbn : 0 ≤ a.balance) (hrem : 0 ≤ rem)
    (hcap : ∀ c, a.max_annual_withdrawal = some c → 0 ≤ c) :
    drawAmount a rem = 0 := by
  have hz : a.balance = 0 := le_antisymm hb hbn
  rw [drawAmount]
  cases hmx : a.max_annual_withdrawal with
  | none =>
    show min a.balance rem = 0
    rw [hz]
    exact min_eq_left hrem
  | some c =>
    show min a.balance (min rem c) = 0
    rw [hz]
    exact min_eq_left (le_min hrem (hcap c hmx))

lemma drawAmount_rem_zero (a : Asset) (hbn : 0 ≤ a.balance)
    (hcap : ∀ c, a.max_annual_withdrawal = some c → 0 ≤ c) :
    drawAmount a 0 = 0 := by
  rw [drawAmount]
  cases hmx : a.max_annual_withdrawal with
  | none =>
    show min a.balance 0 = 0
    exact min_eq_right hbn
  | some c =>
    show min a.balance (min 0 c) = 0
    rw [min_eq_left (hcap c hmx)]
    exact min_eq_right hbn

lemma getD_cap_nonneg (assets : List Asset) (i : ℕ)
    (hcap : ∀ a ∈ assets, ∀ c, a.max_annual_withdrawal = some c → 0 ≤ c) :
    ∀ c, (assets.getD i default).max_annual_withdrawal = some c → 0 ≤ c := by
  by_cases h : i < assets.length
  · rw [List.getD_eq_getElem assets default h]
    exact hcap _ (List.getElem_mem h)
  · rw [List.getD_eq_default assets default (le_of_not_lt h)]
    intro c hc
    exact absurd hc (by simp [default, Inhabited.default])

lemma getD_balance_nonneg (assets : List Asset) (i : ℕ)
    (hbal : ∀ a ∈ assets, 0 ≤ a.balance) :
    0 ≤ (assets.getD i default).balance := by
  by_cases h : i < assets.length
  · rw [List.getD_eq_getElem assets default h]
    exact hbal _ (List.getElem_mem h)
  · rw [List.getD_eq_default assets default (le_of_not_lt h)]
    exact le_refl 0

lemma specDrawFold_rem_zero (idxs : List ℕ) :
    ∀ assets : List Asset, (∀ a ∈ assets, 0 ≤ a.balance) →
      (∀ a ∈ assets, ∀ c, a.max_annual_withdrawal = some c → 0 ≤ c) →
      specDrawFold assets 0 idxs = (assets, 0) := by
  induction idxs with
  | nil =>
    intro assets _ _
    rfl
  | cons i rest ih =>
    intro assets hbal hcap
    rw [specDrawFold]
    rw [drawAmount_rem_zero _ (getD_balance_nonneg assets i hbal)
      (getD_cap_nonneg assets i hcap)]
    rw [asset_update_sub_zero, set_getD_self, sub_zero]
    exact ih assets hbal hcap

lemma waterfallGo_eq_specDrawFold (people : Dict Person) (idxs : List ℕ) :
    ∀ (assets : List Asset) (rem : ℚ) (evs : List (ℕ × ℚ)) (ts : TaxState),
      0 ≤ rem → (∀ a ∈ assets, 0 ≤ a.balance) →
      (∀ a ∈ assets, ∀ c, a.max_annual_withdrawal = some c → 0 ≤ c) →
      (waterfallGo people idxs assets rem evs ts).assets =
        (specDrawFold assets rem idxs).1 ∧
      (waterfallGo people idxs assets rem evs ts).remaining_shortfall =
        (specDrawFold assets rem idxs).2 := by
  induction idxs with
  | nil =>
    intro assets rem evs ts _ _ _
    exact ⟨rfl, rfl⟩
  | cons i rest ih =>
    intro assets rem evs ts hrem hbal hcap
    simp only [waterfallGo]
    by_cases h0 : rem ≤ 0
    · have hz : rem = 0 := le_antisymm h0 hrem
      subst hz
      rw [if_pos (le_refl (0 : ℚ))]
      rw [specDrawFold_rem_zero (i :: rest) assets hbal hcap]
      exact ⟨rfl, rfl⟩
    · rw [if_neg h0]
      rw [specDrawFold]
      by_cases hb : 0 < (assets.getD i default).balance
      · rw [if_pos hb]
        have hbal' : ∀ b ∈ assets.set i
            { assets.getD i default with
              balance := (assets.getD i default).balance -
                drawAmount (assets.getD i default) rem }, 0 ≤ b.balance := by
          intro b hbmem
          rcases List.mem_or_eq_of_mem_set hbmem with hmem | heq
          · exact hbal b hmem
          · rw [heq]
            show 0 ≤ (assets.getD i default).balance - drawAmount (assets.getD i default) rem
            have := drawAmount_le_balance (assets.getD i default) rem
            linarith
        have hcap' : ∀ b ∈ assets.set i
            { assets.getD i default with
              balance := (assets.getD i default).balance -
                drawAmount (assets.getD i default) rem },
            ∀ c, b.max_annual_withdrawal = some c → 0 ≤ c := by
          intro b hbmem
          rcases List.mem_or_eq_of_mem_set hbmem with hmem | heq
          · exact hcap b hmem
          · rw [heq]
            show ∀ c, (assets.getD i default).max_annual_withdrawal = some c → 0 ≤ c
            exact getD_cap_nonneg assets i hcap
        have hrem' : 0 ≤ rem - drawAmount (assets.getD i default) rem := by
          have := drawAmount_le_rem (assets.getD i default) rem
          linarith
        exact ih _ _ _ _ hrem' hbal' hcap'
      · rw [if_neg hb]
        have hbz : (assets.getD i default).balance ≤ 0 := le_of_not_lt hb
        have hw0 : drawAmount (assets.getD i default) rem = 0 :=
          drawAmount_nonpos_balance _ _ hbz (getD_balance_nonneg assets i hbal)
            hrem (getD_cap_nonneg assets i hcap)
        rw [hw0, asset_update_sub_zero, set_getD_self, sub_zero]
        exact ih assets rem evs ts hrem hbal hcap

/-- Claim C3 amended: the waterfall visits the withdrawable assets sorted stably
by the 999-sentinel rank of their type (the last index of the type in
withdrawal_priority, 999 when absent), and, for nonnegative balances and caps,
its balance and remaining-shortfall effect equals drawing
min(balance, remaining, cap or infinity) from each asset of that order in turn. -/
theorem c3_waterfall_order (people : Dict Person) (priority : List AssetType)
    (shortfall : ℚ) (assets : List Asset) (ts : TaxState)
    (hsf : 0 ≤ shortfall)
    (hbal : ∀ a ∈ assets, 0 ≤ a.balance)
    (hcap : ∀ a ∈ assets, ∀ c, a.max_annual_withdrawal = some c → 0 ≤ c) :
    (sortedWithdrawableIdxs priority assets).Perm (withdrawableIdxs assets) ∧
    (sortedWithdrawableIdxs priority assets).Pairwise
      (fun i j => wfKey priority assets i ≤ wfKey priority assets j) ∧
    (∀ v : ℕ, (sortedWithdrawableIdxs priority assets).filter
        (fun i => wfKey priority assets i = v) =
      (withdrawableIdxs assets).filter (fun i => wfKey priority assets i = v)) ∧
    (waterfall people priority shortfall assets ts).assets =
      (specDrawFold assets shortfall (sortedWithdrawableIdxs priority assets)).1 ∧
    (waterfall people priority shortfall assets ts).remaining_shortfall =
      (specDrawFold assets shortfall (sortedWithdrawableIdxs priority assets)).2 := by
  have hperm : (sortedWithdrawableIdxs priority assets).Perm (withdrawableIdxs assets) := by
    rw [sortedWithdrawableIdxs]
    exact List.perm_insertionSort _ _
  have hsorted : (sortedWithdrawableIdxs priority assets).Pairwise
      (fun i j => wfKey priority assets i ≤ wfKey priority assets j) := by
    rw [sortedWithdrawableIdxs]
    haveI : IsTotal ℕ (fun i j => wfKey priority assets i ≤ wfKey priority assets j) :=
      ⟨fun a b => le_total _ _⟩
    haveI : IsTrans ℕ (fun i j => wfKey priority assets i ≤ wfKey priority assets j) :=
      ⟨fun a b c hab hbc => le_trans hab hbc⟩
    exact List.sorted_insertionSort _ _
  have hstable : ∀ v : ℕ, (sortedWithdrawableIdxs priority assets).filter
      (fun i => wfKey priority assets i = v) =
        (withdrawableIdxs assets).filter (fun i => wfKey priority assets i = v) := by
    intro v
    rw [sortedWithdrawableIdxs]
    exact filter_insertionSort_key (wfKey priority assets) v (withdrawableIdxs assets)
  have heq := waterfallGo_eq_specDrawFold people (sortedWithdrawableIdxs priority assets)
    assets shortfall [] ts hsf hbal hcap
  exact ⟨hperm, hsorted, hstable, heq.1, heq.2⟩

/-- Witness for c3_waterfall_order at the cash-asset scenario of
test_withdrawals. -/
theorem c3_waterfall_order_witness :
    ((0 : ℚ) ≤ 20000 ∧ (∀ a ∈ [c2WitnessAsset], 0 ≤ a.balance) ∧
      (∀ a ∈ [c2WitnessAsset], ∀ c, a.max_annual_withdrawal = some c → 0 ≤ c)) ∧
    ((sortedWithdrawableIdxs [AssetType.cash] [c2WitnessAsset]).Perm
        (withdrawableIdxs [c2WitnessAsset]) ∧
      (sortedWithdrawableIdxs [AssetType.cash] [c2WitnessAsset]).Pairwise
        (fun i j => wfKey [AssetType.cash] [c2WitnessAsset] i ≤
          wfKey [AssetType.cash] [c2WitnessAsset] j) ∧
      (∀ v : ℕ, (sortedWithdrawableIdxs [AssetType.cash] [c2WitnessAsset]).filter
          (fun i => wfKey [AssetType.cash] [c2WitnessAsset] i = v) =
        (withdrawableIdxs [c2WitnessAsset]).filter
          (fun i => wfKey [AssetType.cash] [c2WitnessAsset] i = v)) ∧
      (waterfall [] [AssetType.cash] 20000 [c2WitnessAsset] ⟨[], [], [], []⟩).assets =
        (specDrawFold [c2WitnessAsset] 20000
          (sortedWithdrawableIdxs [AssetType.cash] [c2WitnessAsset])).1 ∧
      (waterfall [] [AssetType.cash] 20000 [c2WitnessAsset]
          ⟨[], [], [], []⟩).remaining_shortfall =
        (specDrawFold [c2WitnessAsset] 20000
          (sortedWithdrawableIdxs [AssetType.cash] [c2WitnessAsset])).2) :=
  ⟨⟨by decide, by decide, by decide⟩,
    c3_waterfall_order [] [AssetType.cash] 20000 [c2WitnessAsset] ⟨[], [], [], []⟩
      (by decide) (by decide) (by decide)⟩

set_option maxRecDepth 8000 in
/-- Claim C3 as stated is false: with a withdrawal_priority of 1001 copies of
cash, the priority map ranks cash at its last index 1000, above the fixed
sentinel 999 given to the absent type isa, so the waterfall draws from the ISA
asset first although isa is absent from the priority list and cash is listed. -/
theorem c3_counterexample :
    priorityRank (List.replicate 1001 AssetType.cash) AssetType.cash = 1000 ∧
    priorityRank (List.replicate 1001 AssetType.cash) AssetType.isa = 999 ∧
    (waterfall [] (List.replicate 1001 AssetType.cash) 5 c3CxAssets
      ⟨[], [], [], []⟩).events.map Prod.fst = [1] := by
  refine ⟨?_, ?_, ?_⟩ <;> with_unfolding_all decide

lemma heapWriteAssets_frame (addrs : List ℕ) :
    ∀ (h : Heap) (vals : List Asset) (n : ℕ), (∀ i ∈ addrs, n ≤ i) →
      ∀ j < n, (heapWriteAssets h addrs vals)[j]? = h[j]? := by
  induction addrs with
  | nil =>
    intro h vals n _ j _
    rfl
  | cons a addrs ih =>
    intro h vals n haddr j hj
    cases vals with
    | nil => rfl
    | cons v vs =>
      show (heapWriteAssets (h.set a v) addrs vs)[j]? = h[j]?
      rw [ih (h.set a v) vs n (fun i hi => haddr i (by simp [hi])) j hj]
      apply List.getElem?_set_ne
      have := haddr a (by simp)
      omega

lemma heapRunYears_frame (p : SimulationParams) (people : Dict Person)
    (copyAddrs : List ℕ) (ages : List ℤ) (n : ℕ) (haddr : ∀ i ∈ copyAddrs, n ≤ i) :
    ∀ (h : Heap) (tfr : Dict ℚ) (j : ℕ), j < n →
      (heapRunYears p people copyAddrs ages h tfr)[j]? = h[j]? := by
  induction ages with
  | nil =>
    intro h tfr j _
    rfl
  | cons age rest ih =>
    intro h tfr j hj
    simp only [heapRunYears]
    cases hys : yearStep p people age
        ⟨copyAddrs.map (fun i => h.getD i default), tfr⟩ with
    | error e =>
      exact heapWriteAssets_frame copyAddrs h _ n haddr j hj
    | ok pr =>
      rw [ih _ _ j hj,
        heapWriteAssets_frame copyAddrs _ _ n haddr j hj,
        heapWriteAssets_frame copyAddrs h _ n haddr j hj]

/-- Claim C9: run_simulation leaves the caller's Asset objects untouched. In the
heap model, where line 137 allocates the private copies at fresh addresses past
the end of the caller's heap and every balance mutation of the run is a write at
a copy address, every caller address holds the same object before and after the
run (also when the run aborts with the step-3b AttributeError). -/
theorem c9_no_input_mutation (h0 : Heap) (callerAddrs : List ℕ)
    (q : SimulationParams) (hin : ∀ i ∈ callerAddrs, i < h0.length) :
    ∀ i ∈ callerAddrs, (heap_run_simulation h0 callerAddrs q)[i]? = h0[i]? := by
  intro i hi
  rw [heap_run_simulation]
  have haddr : ∀ a ∈ (List.range (callerAddrs.map (fun i => h0.getD i default)).length).map
      (fun k => h0.length + k), h0.length ≤ a := by
    intro a ha
    rcases List.mem_map.mp ha with ⟨k, _, rfl⟩
    omega
  rw [heapRunYears_frame _ _ _ _ h0.length haddr _ _ i (hin i hi)]
  exact List.getElem?_append_left (hin i hi)

/-- Witness for c9_no_input_mutation: a one-object heap whose single address is
passed as the caller's asset list. -/
theorem c9_no_input_mutation_witness :
    (∀ i ∈ [0], i < c9WitnessHeap.length) ∧
    ∀ i ∈ [0], (heap_run_simulation c9WitnessHeap [0] c8WitnessParams)[i]? =
      c9WitnessHeap[i]? :=
  ⟨by decide, c9_no_input_mutation c9WitnessHeap [0] c8WitnessParams (by decide)⟩

lemma foldl_guard_filter {α β : Type} (p : α → Bool) (f : β → α → β) (l : List α) :
    ∀ s : β, l.foldl (fun s x => if p x then f s x else s) s = (l.filter p).foldl f s := by
  induction l with
  | nil =>
    intro s
    rfl
  | cons x t ih =>
    intro s
    by_cases hx : p x
    · rw [List.filter_cons_of_pos hx, List.foldl_cons, List.foldl_cons, if_pos hx, ih]
    · rw [List.filter_cons_of_neg (by simpa using hx), List.foldl_cons, if_neg hx, ih]

lemma erase_pointwise {as₁ as₂ : List Asset}
    (h : as₁.map eraseOwners = as₂.map eraseOwners) (i : ℕ) :
    eraseOwners (as₁.getD i default) = eraseOwners (as₂.getD i default) := by
  have hlen : as₁.length = as₂.length := by
    have := congrArg List.length h
    simpa using this
  by_cases hi : i < as₁.length
  · have hi₂ : i < as₂.length := hlen ▸ hi
    have h1 := congrArg (fun l => l[i]?) h
    simp only [List.getElem?_map, List.getElem?_eq_getElem hi, List.getElem?_eq_getElem hi₂,
      Option.map_some] at h1
    rw [List.getD_eq_getElem _ _ hi, List.getD_eq_getElem _ _ hi₂]
    exact Option.some.inj h1
  · rw [List.getD_eq_default _ _ (le_of_not_lt hi),
      List.getD_eq_default _ _ (le_of_not_lt (fun hh => hi (hlen ▸ hh)))]

lemma erase_balance {x y : Asset} (h : eraseOwners x = eraseOwners y) :
    x.balance = y.balance := by
  have h2 := congrArg Asset.balance h
  exact h2

lemma erase_type {x y : Asset} (h : eraseOwners x = eraseOwners y) :
    x.type = y.type := by
  have h2 := congrArg Asset.type h
  exact h2

lemma erase_cap {x y : Asset} (h : eraseOwners x = eraseOwners y) :
    x.max_annual_withdrawal = y.max_annual_withdrawal := by
  have h2 := congrArg Asset.max_annual_withdrawal h
  exact h2

lemma erase_withdrawable {x y : Asset} (h : eraseOwners x = eraseOwners y) :
    x.is_withdrawable = y.is_withdrawable := by
  have h2 := congrArg Asset.is_withdrawable h
  exact h2

lemma drawAmount_congr {x y : Asset} (h : eraseOwners x = eraseOwners y) (rem : ℚ) :
    drawAmount x rem = drawAmount y rem := by
  rw [drawAmount, drawAmount, erase_balance h, erase_cap h]

lemma erase_set_balance (a : Asset) (x : ℚ) :
    eraseOwners ({ a with balance := x }) = { eraseOwners a with balance := x } := rfl

lemma withdrawableIdxs_congr_aux (as₁ : List Asset) :
    ∀ (n : ℕ) (as₂ : List Asset), as₁.map eraseOwners = as₂.map eraseOwners →
      ((List.enumFrom n as₁).filter (fun p => p.2.is_withdrawable)).map (fun p => p.1) =
      ((List.enumFrom n as₂).filter (fun p => p.2.is_withdrawable)).map (fun p => p.1) := by
  induction as₁ with
  | nil =>
    intro n as₂ h
    cases as₂ with
    | nil => rfl
    | cons b t => simp at h
  | cons a t ih =>
    intro n as₂ h
    cases as₂ with
    | nil => simp at h
    | cons b t₂ =>
      simp only [List.map_cons, List.cons.injEq] at h
      obtain ⟨hab, ht⟩ := h
      show (((n, a) :: List.enumFrom (n + 1) t).filter (fun p => p.2.is_withdrawable)).map
          (fun p => p.1) = _
      show _ = (((n, b) :: List.enumFrom (n + 1) t₂).filter
          (fun p => p.2.is_withdrawable)).map (fun p => p.1)
      by_cases hw : a.is_withdrawable
      · rw [List.filter_cons_of_pos (by simpa using hw),
          List.filter_cons_of_pos (by simp [← erase_withdrawable hab, hw]),
          List.map_cons, List.map_cons, ih (n + 1) t₂ ht]
      · rw [List.filter_cons_of_neg (by simpa using hw),
          List.filter_cons_of_neg (by simp [← erase_withdrawable hab, hw]),
          ih (n + 1) t₂ ht]

lemma withdrawableIdxs_congr {as₁ as₂ : List Asset}
    (h : as₁.map eraseOwners = as₂.map eraseOwners) :
    withdrawableIdxs as₁ = withdrawableIdxs as₂ := by
  rw [withdrawableIdxs, withdrawableIdxs]
  exact withdrawableIdxs_congr_aux as₁ 0 as₂ h

lemma wfKey_congr (priority : List AssetType) {as₁ as₂ : List Asset}
    (h : as₁.map eraseOwners = as₂.map eraseOwners) :
    wfKey priority as₁ = wfKey priority as₂ := by
  funext i
  rw [wfKey, wfKey]
  exact congrArg (priorityRank priority) (erase_type (erase_pointwise h i))

lemma sortedWithdrawableIdxs_congr (priority : List AssetType) {as₁ as₂ : List Asset}
    (h : as₁.map eraseOwners = as₂.map eraseOwners) :
    sortedWithdrawableIdxs priority as₁ = sortedWithdrawableIdxs priority as₂ := by
  rw [sortedWithdrawableIdxs, sortedWithdrawableIdxs, withdrawableIdxs_congr h,
    wfKey_congr priority h]

lemma waterfallGo_owners (people : Dict Person) (idxs : List ℕ) :
    ∀ (as₁ as₂ : List Asset) (rem : ℚ) (evs : List (ℕ × ℚ)) (ts₁ ts₂ : TaxState),
      as₁.map eraseOwners = as₂.map eraseOwners →
      (waterfallGo people idxs as₁ rem evs ts₁).events =
        (waterfallGo people idxs as₂ rem evs ts₂).events ∧
      (waterfallGo people idxs as₁ rem evs ts₁).remaining_shortfall =
        (waterfallGo people idxs as₂ rem evs ts₂).remaining_shortfall ∧
      (waterfallGo people idxs as₁ rem evs ts₁).assets.map eraseOwners =
        (waterfallGo people idxs as₂ rem evs ts₂).assets.map eraseOwners := by
  induction idxs with
  | nil =>
    intro as₁ as₂ rem evs ts₁ ts₂ h
    exact ⟨rfl, rfl, h⟩
  | cons i rest ih =>
    intro as₁ as₂ rem evs ts₁ ts₂ h
    have he := erase_pointwise h i
    have hbal := erase_balance he
    have hdraw := drawAmount_congr he rem
    simp only [waterfallGo]
    by_cases h0 : rem ≤ 0
    · rw [if_pos h0, if_pos h0]
      exact ⟨rfl, rfl, h⟩
    · rw [if_neg h0, if_neg h0]
      by_cases hb : 0 < (as₁.getD i default).balance
      · rw [if_pos hb, if_pos (hbal ▸ hb)]
        rw [← hdraw, ← hbal]
        apply ih
        rw [List.map_set, List.map_set, h, erase_set_balance, erase_set_balance, he]
        rfl
      · rw [if_neg hb, if_neg (hbal ▸ hb)]
        exact ih as₁ as₂ rem evs ts₁ ts₂ h

/-- Claim C10: unknown ownership entries are silently skipped. (1) The draw
events, remaining shortfall, and balance effect of the waterfall do not depend
on the owners lists at all, so an unattributable share still reduces the asset
balance and still counts toward generated income; (2) for a non-empty owners
list, the attribution is the fold over exactly the entries whose person_id is a
known person, each adding withdrawal × share; (3) in particular when no entry
matches a known person nothing is attributed and nothing falls back to the
first person; (4) the dividend ownership loop skips unknown entries the same
way. -/
theorem c10_unknown_owner_shares :
    (∀ (people : Dict Person) (priority : List AssetType) (shortfall : ℚ)
        (as₁ as₂ : List Asset) (ts₁ ts₂ : TaxState),
      as₁.map eraseOwners = as₂.map eraseOwners →
      (waterfall people priority shortfall as₁ ts₁).events =
        (waterfall people priority shortfall as₂ ts₂).events ∧
      (waterfall people priority shortfall as₁ ts₁).remaining_shortfall =
        (waterfall people priority shortfall as₂ ts₂).remaining_shortfall ∧
      (waterfall people priority shortfall as₁ ts₁).assets.map eraseOwners =
        (waterfall people priority shortfall as₂ ts₂).assets.map eraseOwners) ∧
    (∀ (people : Dict Person) (a : Asset) (w : ℚ) (ts : TaxState), a.owners ≠ [] →
      attributeAssetWithdrawal people a w ts =
        (a.owners.filter (fun o => dictMem people o.person_id)).foldl
          (fun ts o => attribute_withdrawal_tax o.person_id (w * o.share) a ts) ts) ∧
    (∀ (people : Dict Person) (a : Asset) (w : ℚ) (ts : TaxState), a.owners ≠ [] →
      (∀ o ∈ a.owners, dictMem people o.person_id = false) →
      attributeAssetWithdrawal people a w ts = ts) ∧
    (∀ (people : Dict Person) (owners : List AssetOwnership) (dividends : ℚ)
        (acc : Dict ℚ),
      attributeDividendOwners people owners dividends acc =
        (owners.filter (fun o => dictMem people o.person_id)).foldl
          (fun acc o => dictSet acc o.person_id (dictGetD acc o.person_id 0 +
            dividends * o.share)) acc) := by
  have hloop : ∀ (people : Dict Person) (a : Asset) (w : ℚ) (ts : TaxState),
      a.owners ≠ [] →
      attributeAssetWithdrawal people a w ts =
        (a.owners.filter (fun o => dictMem people o.person_id)).foldl
          (fun ts o => attribute_withdrawal_tax o.person_id (w * o.share) a ts) ts := by
    intro people a w ts hne
    rw [attributeAssetWithdrawal.eq_def, if_neg (by simpa [List.isEmpty_iff] using hne)]
    exact foldl_guard_filter _ _ _ ts
  refine ⟨?_, hloop, ?_, ?_⟩
  · intro people priority shortfall as₁ as₂ ts₁ ts₂ h
    rw [waterfall, waterfall, sortedWithdrawableIdxs_congr priority h]
    exact waterfallGo_owners people _ as₁ as₂ shortfall [] ts₁ ts₂ h
  · intro people a w ts hne hunknown
    rw [hloop people a w ts hne]
    rw [List.filter_eq_nil_iff.mpr (by simpa using hunknown)]
    rfl
  · intro people owners dividends acc
    rw [attributeDividendOwners]
    exact foldl_guard_filter _ _ owners acc

/-- Witness for c10_unknown_owner_shares: the waterfall treats the asset with an
unknown owner exactly like the same asset without owners, and the attribution
for its unknown owner adds nothing. -/
theorem c10_unknown_owner_shares_witness :
    ([c10WitnessAsset].map eraseOwners = [c2WitnessAsset].map eraseOwners ∧
      c10WitnessAsset.owners ≠ [] ∧
      (∀ o ∈ c10WitnessAsset.owners, dictMem c10WitnessPeople o.person_id = false)) ∧
    ((waterfall c10WitnessPeople [AssetType.cash] 20000 [c10WitnessAsset]
        ⟨[], [], [], []⟩).events =
      (waterfall c10WitnessPeople [AssetType.cash] 20000 [c2WitnessAsset]
        ⟨[], [], [], []⟩).events ∧
      attributeAssetWithdrawal c10WitnessPeople c10WitnessAsset 20000
        ⟨[], [], [], []⟩ = ⟨[], [], [], []⟩) :=
  ⟨⟨by decide, by decide, by decide⟩,
    ⟨(c10_unknown_owner_shares.1 c10WitnessPeople [AssetType.cash] 20000
        [c10WitnessAsset] [c2WitnessAsset] ⟨[], [], [], []⟩ ⟨[], [], [], []⟩ (by decide)).1,
      c10_unknown_owner_shares.2.2.1 c10WitnessPeople c10WitnessAsset 20000
        ⟨[], [], [], []⟩ (by decide) (by decide)⟩⟩

end RetPlan
